import Mathlib

namespace BtrfsStream

/-!
Verification of the btrfs-send stream decoder and diff renderer

A shallow embedding of `btrfs-snapshots-diff.py`: the byte-level stream
decoder (`BtrfsStream.__init__`, the `tlv_get*` attribute readers and
`BtrfsStream.decode`) and the per-path diff renderer (the `__main__` loop over
`modified.items()`).

Conventions of the embedding:
* the raw stream is a `List Nat` of byte values; multi-byte fields are
  little-endian, read by `readLE`;
* Python exceptions (`struct.error` on a short buffer, `IndexError` on a list
  or table access out of range, the `ValueError`s raised by the decoder) are
  modelled by `Except` error results; any exception aborts the whole decode,
  exactly as an uncaught exception terminates the script;
* `float(s) + ns * 1e-9` for timestamps is kept as the exact pair `(s, ns)`
  and `time.strftime` wall-clock formatting is abstracted by printing the two
  integers: no verified claim concerns timestamp text;
* `OrderedDict` is an association list: `setdefault(path, []).append(e)`
  appends to the existing entry or inserts a fresh key at the tail.
-/
/-- Decidable equality for `Except`, so concrete decoder runs can be checked
by `decide`. -/
instance {ε α : Type} [DecidableEq ε] [DecidableEq α] : DecidableEq (Except ε α) :=
  fun a b =>
    match a, b with
    | .error e, .error f =>
      if h : e = f then isTrue (by rw [h]) else isFalse (fun c => by cases c; exact h rfl)
    | .ok x, .ok y =>
      if h : x = y then isTrue (by rw [h]) else isFalse (fun c => by cases c; exact h rfl)
    | .error _, .ok _ => isFalse (fun c => by cases c)
    | .ok _, .error _ => isFalse (fun c => by cases c)

/-- Little-endian read of `n` bytes starting at index `i`; `none` when the
buffer is too short (Python: `struct.error` from `unpack`). -/
def readLE (s : List Nat) (i : Nat) : Nat → Option Nat
  | 0 => some 0
  | n + 1 =>
    match s[i]? with
    | none => none
    | some b =>
      match readLE s (i + 1) n with
      | none => none
      | some r => some (b + 256 * r)

/-- Source `unpack('<H', ...)`. -/
def readU16 (s : List Nat) (i : Nat) : Option Nat := readLE s i 2

/-- Source `unpack('<I', ...)`. -/
def readU32 (s : List Nat) (i : Nat) : Option Nat := readLE s i 4

/-- Source `unpack('<Q', ...)`. -/
def readU64 (s : List Nat) (i : Nat) : Option Nat := readLE s i 8

/-- Python slice `s[start : start + n]` (clamped at the end of the buffer). -/
def sliceL (s : List Nat) (start n : Nat) : List Nat := (s.drop start).take n

/-- Source `send_cmds`, from btrfs/send.h, indexed by the wire command id. -/
def send_cmds : List String :=
  ["BTRFS_SEND_C_UNSPEC", "BTRFS_SEND_C_SUBVOL",
   "BTRFS_SEND_C_SNAPSHOT", "BTRFS_SEND_C_MKFILE",
   "BTRFS_SEND_C_MKDIR", "BTRFS_SEND_C_MKNOD",
   "BTRFS_SEND_C_MKFIFO", "BTRFS_SEND_C_MKSOCK",
   "BTRFS_SEND_C_SYMLINK", "BTRFS_SEND_C_RENAME",
   "BTRFS_SEND_C_LINK", "BTRFS_SEND_C_UNLINK",
   "BTRFS_SEND_C_RMDIR", "BTRFS_SEND_C_SET_XATTR",
   "BTRFS_SEND_C_REMOVE_XATTR", "BTRFS_SEND_C_WRITE",
   "BTRFS_SEND_C_CLONE", "BTRFS_SEND_C_TRUNCATE",
   "BTRFS_SEND_C_CHMOD", "BTRFS_SEND_C_CHOWN",
   "BTRFS_SEND_C_UTIMES", "BTRFS_SEND_C_END",
   "BTRFS_SEND_C_UPDATE_EXTENT"]

/-- Source `send_attrs`, from btrfs/send.h, indexed by the wire attribute id. -/
def send_attrs : List String :=
  ["BTRFS_SEND_A_UNSPEC", "BTRFS_SEND_A_UUID",
   "BTRFS_SEND_A_CTRANSID", "BTRFS_SEND_A_INO",
   "BTRFS_SEND_A_SIZE", "BTRFS_SEND_A_MODE", "BTRFS_SEND_A_UID",
   "BTRFS_SEND_A_GID", "BTRFS_SEND_A_RDEV",
   "BTRFS_SEND_A_CTIME", "BTRFS_SEND_A_MTIME",
   "BTRFS_SEND_A_ATIME", "BTRFS_SEND_A_OTIME",
   "BTRFS_SEND_A_XATTR_NAME", "BTRFS_SEND_A_XATTR_DATA",
   "BTRFS_SEND_A_PATH", "BTRFS_SEND_A_PATH_TO",
   "BTRFS_SEND_A_PATH_LINK", "BTRFS_SEND_A_FILE_OFFSET",
   "BTRFS_SEND_A_DATA", "BTRFS_SEND_A_CLONE_UUID",
   "BTRFS_SEND_A_CLONE_CTRANSID", "BTRFS_SEND_A_CLONE_PATH",
   "BTRFS_SEND_A_CLONE_OFFSET", "BTRFS_SEND_A_CLONE_LEN"]

/-- Source `mk_rm_cmds`. -/
def mk_rm_cmds : List String :=
  ["BTRFS_SEND_C_MKFILE", "BTRFS_SEND_C_MKDIR",
   "BTRFS_SEND_C_MKFIFO", "BTRFS_SEND_C_MKSOCK",
   "BTRFS_SEND_C_UNLINK", "BTRFS_SEND_C_RMDIR"]

/-- Source `BTRFS_UUID_SIZE`. -/
def BTRFS_UUID_SIZE : Nat := 16

/-- Command header length `l_head`. -/
def l_head : Nat := 10

/-- Attribute header length `l_tlv`. -/
def l_tlv : Nat := 4

/-- Source `command[13:].lower()` : the event-kind string stored in the path
history, derived from a `send_cmds` name. -/
def charLower (c : Char) : Char :=
  if 65 ≤ c.toNat ∧ c.toNat ≤ 90 then Char.ofNat (c.toNat + 32) else c

/-- Source `command[13:].lower()` over the string's characters. -/
def cmdKind (c : String) : String := ⟨(c.data.drop 13).map charLower⟩

/-- The ways the decoder can abort.  Python raises, respectively:
`struct.error` (read past the end of the buffer), `ValueError('Unexpected
attribute ...')`, `IndexError` on `send_attrs[attr]`, `ValueError('Unknown
command ...')`, `ValueError('Unexpected command ...')`; `fuelOut` is the
clock of the fuelled loop and is never reached with the fuel `decode`
supplies. -/
inductive DecodeError
  | truncated
  | attrMismatch
  | attrIdOutOfRange
  | unknownCommand
  | unexpectedCommand
  | fuelOut
  deriving DecidableEq, Repr

/-- The 2-byte attribute id and 2-byte length at `index`
(`unpack('<HH', self.stream[index:index + self.l_tlv])`). -/
def readAttrHead (s : List Nat) (i : Nat) : Option (Nat × Nat) :=
  match readU16 s i, readU16 s (i + 2) with
  | some attr, some lAttr => some (attr, lAttr)
  | _, _ => none

/-- Source `_tlv_get_string`: after the id check, `unpack('<%ds' % l_attr, ...)`
needs the whole payload to be present. -/
def tlv_get_string (s : List Nat) (attr_type : String) (index : Nat) :
    Except DecodeError (Nat × List Nat) :=
  match readAttrHead s index with
  | none => .error .truncated
  | some (attr, lAttr) =>
    match send_attrs[attr]? with
    | none => .error .attrIdOutOfRange
    | some name =>
      if name ≠ attr_type then .error .attrMismatch
      else if index + l_tlv + lAttr ≤ s.length then
        .ok (index + l_tlv + lAttr, sliceL s (index + l_tlv) lAttr)
      else .error .truncated

/-- Source `tlv_get`: reads a 2-byte value at the payload start regardless of
`l_attr` (`unpack('<H', self.stream[index + l_tlv : index + l_tlv + 2])`),
but advances the cursor by `l_attr`. -/
def tlv_get (s : List Nat) (attr_type : String) (index : Nat) :
    Except DecodeError (Nat × Nat) :=
  match readAttrHead s index with
  | none => .error .truncated
  | some (attr, lAttr) =>
    match send_attrs[attr]? with
    | none => .error .attrIdOutOfRange
    | some name =>
      if name ≠ attr_type then .error .attrMismatch
      else
        match readU16 s (index + l_tlv) with
        | none => .error .truncated
        | some v => .ok (index + l_tlv + lAttr, v)

/-- Source `_tlv_get_u64`: `unpack('<Q', self.stream[index + l_tlv : index + l_tlv
+ l_attr])` succeeds exactly when the (clamped) slice is 8 bytes long. -/
def tlv_get_u64 (s : List Nat) (attr_type : String) (index : Nat) :
    Except DecodeError (Nat × Nat) :=
  match readAttrHead s index with
  | none => .error .truncated
  | some (attr, lAttr) =>
    match send_attrs[attr]? with
    | none => .error .attrIdOutOfRange
    | some name =>
      if name ≠ attr_type then .error .attrMismatch
      else if min lAttr (s.length - (index + l_tlv)) = 8 then
        match readU64 s (index + l_tlv) with
        | none => .error .truncated
        | some v => .ok (index + l_tlv + lAttr, v)
      else .error .truncated

/-- Source `'%02x'` of one byte. -/
def hexChar (n : Nat) : Char :=
  if n < 10 then Char.ofNat (48 + n) else Char.ofNat (87 + n)

/-- Source `''.join(['%02x' % x for x in ret])`. -/
def hexStr (bs : List Nat) : String :=
  String.join (bs.map fun b => ⟨[hexChar (b / 16), hexChar (b % 16)]⟩)

/-- Source `_tlv_get_uuid`: `unpack('<' + 'B' * 16, ...)` succeeds exactly
when the (clamped) slice is 16 bytes long; the value is the hex string. -/
def tlv_get_uuid (s : List Nat) (attr_type : String) (index : Nat) :
    Except DecodeError (Nat × String) :=
  match readAttrHead s index with
  | none => .error .truncated
  | some (attr, lAttr) =>
    match send_attrs[attr]? with
    | none => .error .attrIdOutOfRange
    | some name =>
      if name ≠ attr_type then .error .attrMismatch
      else if min lAttr (s.length - (index + l_tlv)) = BTRFS_UUID_SIZE then
        .ok (index + l_tlv + lAttr, hexStr (sliceL s (index + l_tlv) BTRFS_UUID_SIZE))
      else .error .truncated

/-- Source `_tlv_get_timespec`: `unpack('<QL', ...)` succeeds exactly when the
(clamped) slice is 12 bytes long.  The float `float(s) + ns * 1e-9` is kept
as the exact pair `(s, ns)`. -/
def tlv_get_timespec (s : List Nat) (attr_type : String) (index : Nat) :
    Except DecodeError (Nat × (Nat × Nat)) :=
  match readAttrHead s index with
  | none => .error .truncated
  | some (attr, lAttr) =>
    match send_attrs[attr]? with
    | none => .error .attrIdOutOfRange
    | some name =>
      if name ≠ attr_type then .error .attrMismatch
      else if min lAttr (s.length - (index + l_tlv)) = 12 then
        match readU64 s (index + l_tlv), readU32 s (index + l_tlv + 8) with
        | some sec, some ns => .ok (index + l_tlv + lAttr, (sec, ns))
        | _, _ => .error .truncated
      else .error .truncated

/-- One element of the `commands` list built by `decode`: a tagged version of
the Python tuples `(command[13:].lower(), ...)`.  `str` is the bare string
appended for the make/remove commands (`commands.append((command[13:].lower()))`
has no trailing comma, so it appends the string itself, not a 1-tuple). -/
inductive Op
  | subvol (uuid : String) (ctransid : Nat)
  | snapshot (uuid : String) (ctransid : Nat) (clone_uuid : String) (clone_ctransid : Nat)
  | str (s : String)
  | mknod (mode rdev : Nat)
  | symlink (ino : List Nat)
  | rename (path path_to : List Nat)
  | link (path_link : List Nat)
  | set_xattr (xattr_name : List Nat) (xattr_data : Nat)
  | remove_xattr (xattr_name : List Nat)
  | write (file_offset : Nat) (data : Nat)
  | clone (file_offset clone_len : Nat) (clone_uuid : String) (clone_transid : Nat)
      (clone_path : List Nat)
  | truncate (size : Nat)
  | chmod (mode : Nat)
  | chown (uid gid : Nat)
  | utimes (atime mtime ctime : Nat × Nat)
  | update_extent (file_offset size : Nat)
  | end_ (pos len : Nat)
  deriving DecidableEq, Repr

/-- Is this the terminator entry appended by the `BTRFS_SEND_C_END` branch? -/
def Op.isEnd : Op → Bool
  | .end_ _ _ => true
  | _ => false

/-- Is this a clone entry (`BTRFS_SEND_C_CLONE` branch)? -/
def Op.isClone : Op → Bool
  | .clone _ _ _ _ _ => true
  | _ => false

/-- Is this a rename entry (`BTRFS_SEND_C_RENAME` branch)? -/
def Op.isRename : Op → Bool
  | .rename _ _ => true
  | _ => false

/-- A path history entry `(command[13:].lower(), count)`. -/
abbrev Entry := String × Nat

/-- The insertion-ordered `modified` mapping (`OrderedDict`), path bytes to
history entries. -/
abbrev Modified := List (List Nat × List Entry)

/-- Source `modified.setdefault(path, []).append(e)` on an `OrderedDict`: append to
the entry of `path` if present, otherwise insert `(path, [e])` at the tail. -/
def appendEntry (m : Modified) (p : List Nat) (e : Entry) : Modified :=
  match m with
  | [] => [(p, [e])]
  | (q, es) :: rest =>
    if q = p then (q, es ++ [e]) :: rest else (q, es) :: appendEntry rest p e

/-- The mutable state of the `while True` loop in `decode`. -/
structure DState where
  idx : Nat
  count : Nat
  commands : List Op
  modified : Modified
  deriving DecidableEq, Repr

/-- Result of one command dispatch: either the updated `modified` plus the
`Op`s appended to `commands` (the loop then advances), or the terminator. -/
inductive DispatchOut
  | normal (mod : Modified) (ops : List Op)
  | ended
  deriving DecidableEq, Repr

/-- The `if command == ... / elif ...` chain of `BtrfsStream.decode`, in
source order.  Attribute reads start at `st.idx + l_head`.  Each branch
performs its fixed sequence of TLV reads, then records the history entries
and the commands-list element. -/
def dispatch (s : List Nat) (st : DState) (command : String) :
    Except DecodeError DispatchOut :=
  if command = "BTRFS_SEND_C_RENAME" then do
    let d1 ← tlv_get_string s "BTRFS_SEND_A_PATH" (st.idx + l_head)
    let d2 ← tlv_get_string s "BTRFS_SEND_A_PATH_TO" d1.1
    -- source appends the bogus renamed_from entry on the destination first
    .ok (.normal
      (appendEntry (appendEntry st.modified d2.2 ("renamed_from", st.count))
        d1.2 (cmdKind command, st.count))
      [.rename d1.2 d2.2])
  else if command = "BTRFS_SEND_C_SYMLINK" then do
    let d1 ← tlv_get_string s "BTRFS_SEND_A_PATH" (st.idx + l_head)
    let d2 ← tlv_get_string s "BTRFS_SEND_A_INO" d1.1
    .ok (.normal (appendEntry st.modified d1.2 (cmdKind command, st.count))
      [.symlink d2.2])
  else if command = "BTRFS_SEND_C_LINK" then do
    let d1 ← tlv_get_string s "BTRFS_SEND_A_PATH" (st.idx + l_head)
    let d2 ← tlv_get_string s "BTRFS_SEND_A_PATH_LINK" d1.1
    .ok (.normal (appendEntry st.modified d1.2 (cmdKind command, st.count))
      [.link d2.2])
  else if command = "BTRFS_SEND_C_UTIMES" then do
    let d1 ← tlv_get_string s "BTRFS_SEND_A_PATH" (st.idx + l_head)
    let d2 ← tlv_get_timespec s "BTRFS_SEND_A_ATIME" d1.1
    let d3 ← tlv_get_timespec s "BTRFS_SEND_A_MTIME" d2.1
    let d4 ← tlv_get_timespec s "BTRFS_SEND_A_CTIME" d3.1
    .ok (.normal (appendEntry st.modified d1.2 (cmdKind command, st.count))
      [.utimes d2.2 d3.2 d4.2])
  else if command ∈ mk_rm_cmds then do
    let d1 ← tlv_get_string s "BTRFS_SEND_A_PATH" (st.idx + l_head)
    .ok (.normal (appendEntry st.modified d1.2 (cmdKind command, st.count))
      [.str (cmdKind command)])
  else if command = "BTRFS_SEND_C_TRUNCATE" then do
    let d1 ← tlv_get_string s "BTRFS_SEND_A_PATH" (st.idx + l_head)
    let d2 ← tlv_get_u64 s "BTRFS_SEND_A_SIZE" d1.1
    .ok (.normal (appendEntry st.modified d1.2 (cmdKind command, st.count))
      [.truncate d2.2])
  else if command = "BTRFS_SEND_C_SNAPSHOT" then do
    let d1 ← tlv_get_string s "BTRFS_SEND_A_PATH" (st.idx + l_head)
    let d2 ← tlv_get_uuid s "BTRFS_SEND_A_UUID" d1.1
    let d3 ← tlv_get_u64 s "BTRFS_SEND_A_CTRANSID" d2.1
    let d4 ← tlv_get_uuid s "BTRFS_SEND_A_CLONE_UUID" d3.1
    let d5 ← tlv_get_u64 s "BTRFS_SEND_A_CLONE_CTRANSID" d4.1
    .ok (.normal (appendEntry st.modified d1.2 (cmdKind command, st.count))
      [.snapshot d2.2 d3.2 d4.2 d5.2])
  else if command = "BTRFS_SEND_C_SUBVOL" then do
    let d1 ← tlv_get_string s "BTRFS_SEND_A_PATH" (st.idx + l_head)
    let d2 ← tlv_get_uuid s "BTRFS_SEND_A_UUID" d1.1
    let d3 ← tlv_get_u64 s "BTRFS_SEND_A_CTRANSID" d2.1
    .ok (.normal (appendEntry st.modified d1.2 (cmdKind command, st.count))
      [.subvol d2.2 d3.2])
  else if command = "BTRFS_SEND_C_MKNOD" then do
    let d1 ← tlv_get_string s "BTRFS_SEND_A_PATH" (st.idx + l_head)
    let d2 ← tlv_get_u64 s "BTRFS_SEND_A_MODE" d1.1
    let d3 ← tlv_get_u64 s "BTRFS_SEND_A_RDEV" d2.1
    .ok (.normal (appendEntry st.modified d1.2 (cmdKind command, st.count))
      [.mknod d2.2 d3.2])
  else if command = "BTRFS_SEND_C_SET_XATTR" then do
    let d1 ← tlv_get_string s "BTRFS_SEND_A_PATH" (st.idx + l_head)
    let d2 ← tlv_get_string s "BTRFS_SEND_A_XATTR_NAME" d1.1
    let d3 ← tlv_get s "BTRFS_SEND_A_XATTR_DATA" d2.1
    .ok (.normal (appendEntry st.modified d1.2 (cmdKind command, st.count))
      [.set_xattr d2.2 d3.2])
  else if command = "BTRFS_SEND_C_REMOVE_XATTR" then do
    let d1 ← tlv_get_string s "BTRFS_SEND_A_PATH" (st.idx + l_head)
    let d2 ← tlv_get_string s "BTRFS_SEND_A_XATTR_NAME" d1.1
    .ok (.normal (appendEntry st.modified d1.2 (cmdKind command, st.count))
      [.remove_xattr d2.2])
  else if command = "BTRFS_SEND_C_WRITE" then do
    let d1 ← tlv_get_string s "BTRFS_SEND_A_PATH" (st.idx + l_head)
    let d2 ← tlv_get_u64 s "BTRFS_SEND_A_FILE_OFFSET" d1.1
    let d3 ← tlv_get s "BTRFS_SEND_A_DATA" d2.1
    .ok (.normal (appendEntry st.modified d1.2 (cmdKind command, st.count))
      [.write d2.2 d3.2])
  else if command = "BTRFS_SEND_C_CLONE" then do
    let d1 ← tlv_get_string s "BTRFS_SEND_A_PATH" (st.idx + l_head)
    let d2 ← tlv_get_u64 s "BTRFS_SEND_A_FILE_OFFSET" d1.1
    let d3 ← tlv_get_u64 s "BTRFS_SEND_A_CLONE_LEN" d2.1
    let d4 ← tlv_get_uuid s "BTRFS_SEND_A_CLONE_UUID" d3.1
    -- BTRFS_SEND_A_CLONE_TRANSID does not occur in send_attrs (the table has
    -- BTRFS_SEND_A_CLONE_CTRANSID), so this read always fails
    let d5 ← tlv_get_u64 s "BTRFS_SEND_A_CLONE_TRANSID" d4.1
    -- source restarts the clone_path read at idx + l_head
    let d6 ← tlv_get_string s "BTRFS_SEND_A_CLONE_PATH" (st.idx + l_head)
    let _d7 ← tlv_get_u64 s "BTRFS_SEND_A_CLONE_OFFSET" d6.1
    .ok (.normal (appendEntry st.modified d1.2 (cmdKind command, st.count))
      [.clone d2.2 d3.2 d4.2 d5.2 d6.2])
  else if command = "BTRFS_SEND_C_CHMOD" then do
    let d1 ← tlv_get_string s "BTRFS_SEND_A_PATH" (st.idx + l_head)
    let d2 ← tlv_get_u64 s "BTRFS_SEND_A_MODE" d1.1
    .ok (.normal (appendEntry st.modified d1.2 (cmdKind command, st.count))
      [.chmod d2.2])
  else if command = "BTRFS_SEND_C_CHOWN" then do
    let d1 ← tlv_get_string s "BTRFS_SEND_A_PATH" (st.idx + l_head)
    let d2 ← tlv_get_u64 s "BTRFS_SEND_A_UID" d1.1
    let d3 ← tlv_get_u64 s "BTRFS_SEND_A_GID" d2.1
    .ok (.normal (appendEntry st.modified d1.2 (cmdKind command, st.count))
      [.chown d2.2 d3.2])
  else if command = "BTRFS_SEND_C_UPDATE_EXTENT" then do
    let d1 ← tlv_get_string s "BTRFS_SEND_A_PATH" (st.idx + l_head)
    let d2 ← tlv_get_u64 s "BTRFS_SEND_A_FILE_OFFSET" d1.1
    let d3 ← tlv_get_u64 s "BTRFS_SEND_A_SIZE" d2.1
    .ok (.normal (appendEntry st.modified d1.2 (cmdKind command, st.count))
      [.update_extent d2.2 d3.2])
  else if command = "BTRFS_SEND_C_END" then
    .ok .ended
  else if command = "BTRFS_SEND_C_UNSPEC" then
    .ok (.normal st.modified [])
  else
    -- "Shoud not happen"
    .error .unexpectedCommand

/-- Result of one iteration of the `while True` loop: continue or break. -/
inductive StepOut
  | next (st : DState)
  | done (st : DState)
  deriving DecidableEq, Repr

/-- One iteration of the loop body of `decode`: read the 10-byte command
header `(l_cmd, cmd, crc)`, look the id up in `send_cmds`, dispatch, then
either break (terminator, after appending the `(command, idx + l_head,
len(stream))` record) or advance `idx` by `l_head + l_cmd` (the declared
body length) and `count` by one. -/
def stepCmd (s : List Nat) (st : DState) : Except DecodeError StepOut :=
  match readU32 s st.idx, readU16 s (st.idx + 4), readU32 s (st.idx + 6) with
  | some l_cmd, some cmd, some _crc =>
    match send_cmds[cmd]? with
    | none => .error .unknownCommand
    | some command =>
      match dispatch s st command with
      | .error e => .error e
      | .ok .ended =>
        .ok (.done { st with
          commands := st.commands ++ [.end_ (st.idx + l_head) s.length] })
      | .ok (.normal mod ops) =>
        .ok (.next { idx := st.idx + l_head + l_cmd, count := st.count + 1,
                     commands := st.commands ++ ops, modified := mod })
  | _, _, _ => .error .truncated

/-- The `while True` loop, fuelled.  The Python loop terminates because
`idx` grows by at least `l_head` each iteration, so the fuel `decode`
supplies is never exhausted before the loop exits by itself. -/
def decodeLoop (s : List Nat) : Nat → DState → Except DecodeError (Modified × List Op)
  | 0, _ => .error .fuelOut
  | fuel + 1, st =>
    match stepCmd s st with
    | .error e => .error e
    | .ok (.done st') => .ok (st'.modified, st'.commands)
    | .ok (.next st') => decodeLoop s fuel st'

/-- Source `BtrfsStream.decode`: start at byte 17 (right after the stream header)
with `count = 0` and empty `commands` / `modified`. -/
def decode (s : List Nat) : Except DecodeError (Modified × List Op) :=
  decodeLoop s (s.length + 1) ⟨17, 0, [], []⟩

/-- The 12-byte magic `'btrfs-stream'`. -/
def magicBytes : List Nat := [98, 116, 114, 102, 115, 45, 115, 116, 114, 101, 97, 109]

/-- Header parsing in `BtrfsStream.__init__`: `none` models a stream whose
version cannot be used (either `self.version = None`, or the `struct.error`
that `unpack('<12scI', ...)` raises on a buffer shorter than 17 bytes right
after the too-short warning is printed).  Only the 12 magic bytes are
compared; the null byte unpacked at offset 12 is bound to `null` and never
checked.  The version is the little-endian u32 at offset 13. -/
def parseHeader (s : List Nat) : Option Nat :=
  if s.length < 17 then none
  else if sliceL s 0 12 ≠ magicBytes then none
  else readU32 s 13

/-- Decoded path bytes shown as text (paths travel as raw bytes). -/
def pathStr (p : List Nat) : String := ⟨p.map Char.ofNat⟩

/-- ASCII digit byte (`\d` of the temporary-name pattern). -/
def isDigitByte (n : Nat) : Bool := 48 ≤ n && n ≤ 57

/-- Source `re.compile(r'o\d+-\d+-0$').match(path)`: the whole path is
`o<digits>-<digits>-0`.  (`\d+` is followed by `-`, which is not a digit, so
maximal munch needs no backtracking; `$` matching before a trailing newline
is not modelled.) -/
def isTmp (p : List Nat) : Bool :=
  match p with
  | 111 :: rest =>
    match rest with
    | d1 :: r1 =>
      isDigitByte d1 &&
        (match r1.dropWhile isDigitByte with
         | 45 :: r3 =>
           (match r3 with
            | d2 :: r4 =>
              isDigitByte d2 &&
                (match r4.dropWhile isDigitByte with
                 | [45, 48] => true
                 | _ => false)
            | [] => false)
         | _ => false)
    | [] => false
  | _ => false

/-- Source `f'update extents {extents[0][0]} -> {extents[-1][0] + extents[-1][1]}'`. -/
def extentLine (a b : Nat) : String :=
  "update extents " ++ toString a ++ " -> " ++ toString b

/-- Recognise the collapsed-extents line among rendered lines (it is the only
line of the action loop beginning with these 15 characters). -/
def isExtentLine (l : String) : Bool :=
  decide (l.data.take 15 = "update extents ".data)

/-- Source `f'renamed from {cmd[1]}'`. -/
def renamedFromLine (x : String) : String := "renamed from " ++ x

/-- Source `f'xattr {cmd[1]} {cmd[2]}'`. -/
def xattrLine (n : String) (d : Nat) : String := "xattr " ++ n ++ " " ++ toString d

/-- Source `f'truncate {cmd[1]}'`. -/
def truncateLine (n : Nat) : String := "truncate " ++ toString n

/-- Source `f'owner {cmd[1]}:{cmd[2]}'`. -/
def ownerLine (u g : Nat) : String := "owner " ++ toString u ++ ":" ++ toString g

/-- Source `f'mode {cmd[1]}'`. -/
def modeLine (m : Nat) : String := "mode " ++ toString m

/-- Source `f'link to "{cmd[1]}"'`. -/
def linkLine (l : String) : String := "link to \"" ++ l ++ "\""

/-- Source `f'symlink to "{cmd[1]}"'`. -/
def symlinkLine (i : String) : String := "symlink to \"" ++ i ++ "\""

/-- Source `f'rename to "{cmd[2]}"'`. -/
def renameLine (pt : String) : String := "rename to \"" ++ pt ++ "\""

/-- One timestamp of the times line; stands in for
`time.strftime('%Y/%m/%d %H:%M:%S', time.localtime(...))`, whose wall-clock
text depends on the environment and matters to no claim. -/
def tsStr (t : Nat × Nat) : String := toString t.1 ++ "+" ++ toString t.2 ++ "ns"

/-- Source `'times a=%s m=%s c=%s' % ...`. -/
def timesLine (a m c : Nat × Nat) : String :=
  "times a=" ++ tsStr a ++ " m=" ++ tsStr m ++ " c=" ++ tsStr c

/-- Source `f'snapshot: uuid={cmd[1]}, ctrasid={cmd[2]}, clone_uuid={cmd[3]}, clone_ctransid={cmd[4]}'`
(the `ctrasid` typo is the source's). -/
def snapshotLine (u : String) (ct : Nat) (cu : String) (cct : Nat) : String :=
  "snapshot: uuid=" ++ u ++ ", ctrasid=" ++ toString ct ++ ", clone_uuid=" ++ cu
    ++ ", clone_ctransid=" ++ toString cct

/-- Textual stand-in for Python `repr` of a commands-list element, used only
by the fallback branch `f'{a}, {cmd} {"-" * 20}'`; its text matters to no
claim (only that it does not start like the collapsed-extents line). -/
def opStr : Op → String
  | .subvol u c => "(subvol, " ++ u ++ ", " ++ toString c ++ ")"
  | .snapshot u c cu cc =>
    "(snapshot, " ++ u ++ ", " ++ toString c ++ ", " ++ cu ++ ", " ++ toString cc ++ ")"
  | .str s => s
  | .mknod m r => "(mknod, " ++ toString m ++ ", " ++ toString r ++ ")"
  | .symlink i => "(symlink, " ++ pathStr i ++ ")"
  | .rename p q => "(rename, " ++ pathStr p ++ ", " ++ pathStr q ++ ")"
  | .link l => "(link, " ++ pathStr l ++ ")"
  | .set_xattr n d => "(set_xattr, " ++ pathStr n ++ ", " ++ toString d ++ ")"
  | .remove_xattr n => "(remove_xattr, " ++ pathStr n ++ ")"
  | .write o d => "(write, " ++ toString o ++ ", " ++ toString d ++ ")"
  | .clone o l u t p =>
    "(clone, " ++ toString o ++ ", " ++ toString l ++ ", " ++ u ++ ", "
      ++ toString t ++ ", " ++ pathStr p ++ ")"
  | .truncate n => "(truncate, " ++ toString n ++ ")"
  | .chmod m => "(chmod, " ++ toString m ++ ")"
  | .chown u g => "(chown, " ++ toString u ++ ", " ++ toString g ++ ")"
  | .utimes a m c => "(utimes, " ++ tsStr a ++ ", " ++ tsStr m ++ ", " ++ tsStr c ++ ")"
  | .update_extent o sz => "(update_extent, " ++ toString o ++ ", " ++ toString sz ++ ")"
  | .end_ p l => "(end, " ++ toString p ++ ", " ++ toString l ++ ")"

/-- The fallback branch `print_actions.append(f'{a}, {cmd} {"-" * 20}')`. -/
def elseLine (a : Entry) (cmd : Op) : String :=
  "(" ++ a.1 ++ ", " ++ toString a.2 ++ "), " ++ opStr cmd ++ " --------------------"

/-- Textual stand-in for Python `repr` of a history list, used by the
temporary-path anomaly print. -/
def entriesStr (acts : List Entry) : String :=
  "[" ++ String.join (acts.map fun a => "(" ++ a.1 ++ ", " ++ toString a.2 ++ ") ") ++ "]"

/-- The anomaly print `print(path, '\n\t', actions, '=' * 20)` for a
temporary-named path whose history shape is unrecognised. -/
def anomalyLine (path : List Nat) (acts : List Entry) : String :=
  pathStr path ++ " \n\t " ++ entriesStr acts ++ " ===================="

/-- Renderer failures: `IndexError` on `commands[a[1]]`, `actions[i]`,
`extents[i]` or `del print_actions[-1]`; `typeErr` models the dynamic type
errors Python hits (or the nonsense it prints) when a history entry's
command index points at a commands-list element whose tuple shape does not
belong to the entry's kind, which cannot happen when the indices are
consistent. -/
inductive RenderError
  | indexError
  | typeErr
  deriving DecidableEq, Repr

/-- The rolling state of the per-path action loop: `prev_action`, `extents`
and `print_actions`. -/
structure RState where
  prev : Option String
  extents : List (Nat × Nat)
  out : List String
  deriving DecidableEq, Repr

/-- The flush at the top of the loop body: when the previous action was
`update_extent` and the current one is not, append the collapsed line
`extents[0][0] -> extents[-1][0] + extents[-1][1]`.  (`extents` is *not*
cleared here, and nothing flushes after the loop.) -/
def flushExtents (st : RState) (k : String) : Except RenderError (List String) :=
  if st.prev = some "update_extent" ∧ k ≠ "update_extent" then
    match st.extents.head?, st.extents.getLast? with
    | some e0, some e1 => .ok (st.out ++ [extentLine e0.1 (e1.1 + e1.2)])
    | _, _ => .error .indexError
  else .ok st.out

/-- The `if a[0] == ... / elif ...` chain of the action loop, in source
order, returning the updated `print_actions` and `extents`. -/
def renderDispatch (filt : Bool) (a : Entry) (cmd : Op) (prev : Option String)
    (out : List String) (extents : List (Nat × Nat)) :
    Except RenderError (List String × List (Nat × Nat)) :=
  if a.1 = "renamed_from" then
    match cmd with
    | .rename p _ =>
      if filt && isTmp p then
        if prev = some "unlink" then
          match out with
          | [] => .error .indexError
          | _ => .ok (out.dropLast ++ ["rewritten"], extents)
        else .ok (out ++ ["created"], extents)
      else .ok (out ++ [renamedFromLine (pathStr p)], extents)
    | _ => .error .typeErr
  else if a.1 = "set_xattr" then
    match cmd with
    | .set_xattr n d => .ok (out ++ [xattrLine (pathStr n) d], extents)
    | _ => .error .typeErr
  else if a.1 = "update_extent" then
    match cmd with
    | .update_extent o sz => .ok (out, extents ++ [(o, sz)])
    | _ => .error .typeErr
  else if a.1 = "truncate" then
    match cmd with
    | .truncate n => .ok (out ++ [truncateLine n], extents)
    | _ => .error .typeErr
  else if a.1 = "chown" then
    match cmd with
    | .chown u g => .ok (out ++ [ownerLine u g], extents)
    | _ => .error .typeErr
  else if a.1 = "chmod" then
    match cmd with
    | .chmod m => .ok (out ++ [modeLine m], extents)
    | _ => .error .typeErr
  else if a.1 = "link" then
    match cmd with
    | .link l => .ok (out ++ [linkLine (pathStr l)], extents)
    | _ => .error .typeErr
  else if a.1 = "symlink" then
    match cmd with
    | .symlink i => .ok (out ++ [symlinkLine (pathStr i)], extents)
    | _ => .error .typeErr
  else if a.1 = "unlink" ∨ a.1 = "mkfile" ∨ a.1 = "mkdir" ∨ a.1 = "mkfifo" then
    .ok (out ++ [a.1], extents)
  else if a.1 = "rename" then
    match cmd with
    | .rename _ pt => .ok (out ++ [renameLine (pathStr pt)], extents)
    | _ => .error .typeErr
  else if a.1 = "utimes" then
    match cmd with
    | .utimes ta tm tc =>
      if filt = true ∧ prev = some "utimes" then
        match out with
        | [] => .error .indexError
        | _ => .ok (out.dropLast ++ [timesLine ta tm tc], extents)
      else .ok (out ++ [timesLine ta tm tc], extents)
    | _ => .error .typeErr
  else if a.1 = "snapshot" then
    match cmd with
    | .snapshot u ct cu cct => .ok (out ++ [snapshotLine u ct cu cct], extents)
    | _ => .error .typeErr
  else if a.1 = "write" then
    -- the source appends the literal string, there is no f-prefix
    .ok (out ++ ["write: from cmd[1]"], extents)
  else
    .ok (out ++ [elseLine a cmd], extents)

/-- One iteration of `for a in actions`: look up `commands[a[1]]`, flush a
finished extent run, dispatch on the entry kind, set `prev_action`. -/
def renderStep (filt : Bool) (cmds : List Op) (st : RState) (a : Entry) :
    Except RenderError RState := do
  let cmd ← match cmds[a.2]? with
    | some c => pure c
    | none => .error .indexError
  let out1 ← flushExtents st a.1
  let (out2, ex2) ← renderDispatch filt a cmd st.prev out1 st.extents
  .ok ⟨some a.1, ex2, out2⟩

/-- The action loop itself. -/
def renderActs (filt : Bool) (cmds : List Op) (st : RState) :
    List Entry → Except RenderError RState
  | [] => .ok st
  | a :: rest => do
    let st' ← renderStep filt cmds st a
    renderActs filt cmds st' rest

/-- The `'__sub_root__'` sentinel for the empty path. -/
def subRootName : String := "__sub_root__"

/-- The lines printed for one `(path, actions)` item of `modified.items()`
(text mode: the path name, then one line per rendered action).

In filter mode a path matching the temporary-name pattern never reaches the
action loop: it is suppressed entirely when its leading history entries show
one of the two known ephemeral shapes, and otherwise printed as a one-line
anomaly.  The Python conditions short-circuit, so `actions[1]` is only
evaluated when `actions[0][0]` is `mkfile`/`mkdir`/`symlink` (first shape)
or `renamed_from` (second shape); `actions[0]` is always evaluated. -/
def renderPath (filt : Bool) (cmds : List Op) (path : List Nat)
    (acts : List Entry) : Except RenderError (List String) :=
  if filt && isTmp path then
    match acts[0]? with
    | none => .error .indexError
    | some a0 =>
      if a0.1 = "mkfile" ∨ a0.1 = "mkdir" ∨ a0.1 = "symlink" then
        match acts[1]? with
        | none => .error .indexError
        | some a1 =>
          if a1.1 = "rename" then .ok []
          else .ok [anomalyLine path acts]
      else if a0.1 = "renamed_from" then
        match acts[1]? with
        | none => .error .indexError
        | some a1 =>
          if a1.1 = "rmdir" then .ok []
          else .ok [anomalyLine path acts]
      else .ok [anomalyLine path acts]
  else do
    let disp := if path = [] then subRootName else pathStr path
    let st ← renderActs filt cmds ⟨none, [], []⟩ acts
    .ok (disp :: st.out)

/-- Little-endian bytes of a 16-bit value (test-stream construction). -/
def u16le (n : Nat) : List Nat := [n % 256, n / 256 % 256]

/-- Little-endian bytes of a 32-bit value (test-stream construction). -/
def u32le (n : Nat) : List Nat :=
  [n % 256, n / 256 % 256, n / 65536 % 256, n / 16777216 % 256]

/-- A 10-byte command header: declared body length, command id, checksum. -/
def cmd_header (l_cmd cmd crc : Nat) : List Nat := u32le l_cmd ++ u16le cmd ++ u32le crc

/-- A TLV attribute record: id, payload length, payload. -/
def attr_tlv (id : Nat) (payload : List Nat) : List Nat :=
  u16le id ++ u16le payload.length ++ payload

/-- A valid 17-byte stream header with version 1. -/
def stream_header : List Nat := magicBytes ++ [0] ++ u32le 1

/-- A valid header buffer: magic, null byte, version 1. -/
def goodHeader : List Nat := magicBytes ++ [0, 1, 0, 0, 0]

/-- A 17-byte buffer whose null byte at offset 12 is 7 instead of 0. -/
def badNullHeader : List Nat := magicBytes ++ [7, 1, 0, 0, 0]

/-- The 17-byte header followed by a bare terminator command header. -/
def endOnlyStream : List Nat := stream_header ++ cmd_header 0 21 0

/-- Body of a rename command: PATH "a", PATH_TO "b". -/
def renameBody : List Nat := attr_tlv 15 [97] ++ attr_tlv 16 [98]

/-- Header, rename of "a" to "b", terminator. -/
def renameStream : List Nat :=
  stream_header ++ cmd_header 10 9 0 ++ renameBody ++ cmd_header 0 21 0

/-- Header, an UNSPEC command, rename of "a" to "b", terminator: the rename
is command number 1 but lands at position 0 of the operation list. -/
def unspecRenameStream : List Nat :=
  stream_header ++ cmd_header 0 0 0 ++ cmd_header 10 9 0 ++ renameBody ++ cmd_header 0 21 0

/-- Header, mkfile "a", mkfile "b", terminator. -/
def twoMkfileStream : List Nat :=
  stream_header ++ cmd_header 5 3 0 ++ attr_tlv 15 [97] ++ cmd_header 5 3 0
    ++ attr_tlv 15 [98] ++ cmd_header 0 21 0

/-- Header, then a truncate command whose first attribute carries id 4
(BTRFS_SEND_A_SIZE) where the schema expects BTRFS_SEND_A_PATH. -/
def badAttrStream : List Nat :=
  stream_header ++ cmd_header 5 17 0 ++ attr_tlv 4 [97] ++ cmd_header 0 21 0

/-- The command index of the first history entry of one `modified` item
(its histories are never empty). -/
def firstIdx (pe : List Nat × List Entry) : Nat := (pe.2.map (fun e => e.2)).headI

/-- The ordering invariant of the `modified` mapping while the counter is at
most `c`: histories are nonempty, each history's command indices are
non-decreasing and bounded by `c`, and the first-entry indices are
non-decreasing along the insertion order of the mapping. -/
def InvLe (m : Modified) (c : Nat) : Prop :=
  (∀ pe ∈ m, pe.2 ≠ []) ∧
  (∀ pe ∈ m, List.Chain' (· ≤ ·) (pe.2.map (fun e => e.2))) ∧
  (∀ pe ∈ m, ∀ e ∈ pe.2, e.2 ≤ c) ∧
  List.Chain' (· ≤ ·) (m.map firstIdx)

/-- The line a pending extent buffer would produce
(`extents[0][0] -> extents[-1][0] + extents[-1][1]`), empty when nothing is
buffered. -/
def pendingLine (extents : List (Nat × Nat)) : List String :=
  match extents.head?, extents.getLast? with
  | some e0, some e1 => [extentLine e0.1 (e1.1 + e1.2)]
  | _, _ => []

/-- The lines the top-of-loop flush appends for entry kind `k` in state
`st`: the pending collapsed line exactly when an extent run has just ended. -/
def flushLines (st : RState) (k : String) : List String :=
  if st.prev = some "update_extent" ∧ ¬(k = "update_extent") then pendingLine st.extents
  else []

/-- Does the renderer branch for entry kind `k` only access the fields its
commands-list element actually has?  Kinds that read no field of `cmd`
accept any element. -/
def shapeOk (k : String) : Op → Bool :=
  fun op =>
    match k, op with
    | "renamed_from", .rename _ _ => true
    | "set_xattr", .set_xattr _ _ => true
    | "update_extent", .update_extent _ _ => true
    | "truncate", .truncate _ => true
    | "chown", .chown _ _ => true
    | "chmod", .chmod _ => true
    | "link", .link _ => true
    | "symlink", .symlink _ => true
    | "rename", .rename _ _ => true
    | "utimes", .utimes _ _ _ => true
    | "snapshot", .snapshot _ _ _ _ => true
    | "renamed_from", _ => false
    | "set_xattr", _ => false
    | "update_extent", _ => false
    | "truncate", _ => false
    | "chown", _ => false
    | "chmod", _ => false
    | "link", _ => false
    | "symlink", _ => false
    | "rename", _ => false
    | "utimes", _ => false
    | "snapshot", _ => false
    | _, _ => true

/-- Every history entry's command index resolves to a commands-list element
of the shape its renderer branch expects — true of any decode whose history
indices are consistent with the operation list. -/
def WFacts (cmds : List Op) (acts : List Entry) : Bool :=
  acts.all fun a =>
    match cmds[a.2]? with
    | some op => shapeOk a.1 op
    | none => false

/-- Reference scanner for the amended claim: walking one path's history with
the accumulated extent buffer `acc` (never cleared) and the flag `pu`
(previous entry was an update-extent), each maximal update-extent run
followed by a non-update-extent entry emits one collapsed line from the
buffer's first entry to its last, and a run that ends the history emits
nothing. -/
def collapsedExtentLinesAux (cmds : List Op) :
    List (Nat × Nat) → Bool → List Entry → List String
  | _, _, [] => []
  | acc, pu, a :: rest =>
    if a.1 = "update_extent" then
      match cmds[a.2]? with
      | some (.update_extent o sz) =>
        collapsedExtentLinesAux cmds (acc ++ [(o, sz)]) true rest
      | _ => []
    else
      (if pu then pendingLine acc else []) ++
        collapsedExtentLinesAux cmds acc false rest

/-- The collapsed-extent lines of one path's history, per the amended claim. -/
def collapsedExtentLines (cmds : List Op) (acts : List Entry) : List String :=
  collapsedExtentLinesAux cmds [] false acts

/-- The renderer's rolling-state invariant: a pending extent run has a
nonempty buffer, and after an unlink or utimes the last printed line is the
one that branch appended (never a collapsed-extents line), so the deleting
branches remove only it. -/
def RInv (st : RState) : Prop :=
  (st.prev = some "update_extent" → st.extents ≠ []) ∧
  (st.prev = some "unlink" → st.out.getLast? = some "unlink") ∧
  (st.prev = some "utimes" → ∃ l, st.out.getLast? = some l ∧ isExtentLine l = false)

/-- Unfolding of `Except` bind against a success result. -/
lemma bind_eq_ok {ε α β : Type} {x : Except ε α} {f : α → Except ε β} {b : β} :
    x >>= f = .ok b ↔ ∃ a, x = .ok a ∧ f a = .ok b := by
  cases x <;> simp [Bind.bind, Except.bind]

/-- A little-endian read inside the buffer always succeeds. -/
lemma readLE_isSome {s : List Nat} {n i : Nat} (h : i + n ≤ s.length) :
    ∃ v, readLE s i n = some v := by
  induction n generalizing i with
  | zero => exact ⟨0, rfl⟩
  | succ n ih =>
    have hi : i < s.length := by omega
    obtain ⟨v, hv⟩ := @ih (i + 1) (by omega)
    exact ⟨s[i] + 256 * v, by simp [readLE, List.getElem?_eq_getElem hi, hv]⟩

/-- The UNSPEC branch of `dispatch` consumes nothing and records nothing. -/
lemma dispatch_unspec (s : List Nat) (st : DState) :
    dispatch s st "BTRFS_SEND_C_UNSPEC" = .ok (.normal st.modified []) := rfl

/-- Structure of a loop iteration that continues: the header reads
succeeded, the command id resolved, dispatch succeeded, and the state
advances by `l_head` plus the declared body length. -/
lemma stepCmd_next {s : List Nat} {st st' : DState}
    (h : stepCmd s st = .ok (.next st')) :
    ∃ l_cmd cid command mod ops,
      readU32 s st.idx = some l_cmd ∧ readU16 s (st.idx + 4) = some cid ∧
      send_cmds[cid]? = some command ∧
      dispatch s st command = .ok (.normal mod ops) ∧
      st' = ⟨st.idx + l_head + l_cmd, st.count + 1, st.commands ++ ops, mod⟩ := by
  unfold stepCmd at h
  rcases h1 : readU32 s st.idx with _ | l_cmd <;> rw [h1] at h
  · simp at h
  rcases h2 : readU16 s (st.idx + 4) with _ | cid <;> rw [h2] at h
  · simp at h
  rcases h3 : readU32 s (st.idx + 6) with _ | crc <;> rw [h3] at h
  · simp at h
  dsimp only at h
  rcases h4 : send_cmds[cid]? with _ | command <;> rw [h4] at h
  · simp at h
  dsimp only at h
  rcases h5 : dispatch s st command with e | d <;> rw [h5] at h
  · simp at h
  cases d with
  | normal mod ops =>
    injection h with h'
    injection h' with h''
    exact ⟨l_cmd, cid, command, mod, ops, rfl, rfl, h4, h5, h''.symm⟩
  | ended => exact absurd h (by simp)

/-- Structure of the terminating iteration: the terminator appends exactly
the `end` record `(idx + l_head, len(stream))` and leaves `modified` alone. -/
lemma stepCmd_done {s : List Nat} {st st' : DState}
    (h : stepCmd s st = .ok (.done st')) :
    st'.modified = st.modified ∧
    st'.commands = st.commands ++ [.end_ (st.idx + l_head) s.length] := by
  unfold stepCmd at h
  rcases h1 : readU32 s st.idx with _ | l_cmd <;> rw [h1] at h
  · simp at h
  rcases h2 : readU16 s (st.idx + 4) with _ | cid <;> rw [h2] at h
  · simp at h
  rcases h3 : readU32 s (st.idx + 6) with _ | crc <;> rw [h3] at h
  · simp at h
  dsimp only at h
  rcases h4 : send_cmds[cid]? with _ | command <;> rw [h4] at h
  · simp at h
  dsimp only at h
  rcases h5 : dispatch s st command with e | d <;> rw [h5] at h
  · simp at h
  cases d with
  | normal mod ops => exact absurd h (by simp)
  | ended =>
    injection h with h'
    injection h' with h''
    subst h''
    exact ⟨rfl, rfl⟩

/-- The first `decode` branch (`BTRFS_SEND_C_RENAME`), unfolded. -/
lemma dispatch_rename_eq (s : List Nat) (st : DState) :
    dispatch s st "BTRFS_SEND_C_RENAME" =
      (tlv_get_string s "BTRFS_SEND_A_PATH" (st.idx + l_head) >>= fun d1 =>
        tlv_get_string s "BTRFS_SEND_A_PATH_TO" d1.1 >>= fun d2 =>
        .ok (.normal
          (appendEntry (appendEntry st.modified d2.2 ("renamed_from", st.count))
            d1.2 ("rename", st.count))
          [.rename d1.2 d2.2])) := rfl

/-- What a successful rename dispatch did: both TLV reads succeeded, the
destination history gained `renamed_from` and the source history `rename`,
both stamped with the current command counter. -/
lemma dispatch_rename {s : List Nat} {st : DState} {mod : Modified} {ops : List Op}
    (h : dispatch s st "BTRFS_SEND_C_RENAME" = .ok (.normal mod ops)) :
    ∃ i2 j path path_to,
      tlv_get_string s "BTRFS_SEND_A_PATH" (st.idx + l_head) = .ok (i2, path) ∧
      tlv_get_string s "BTRFS_SEND_A_PATH_TO" i2 = .ok (j, path_to) ∧
      mod = appendEntry (appendEntry st.modified path_to ("renamed_from", st.count))
        path ("rename", st.count) ∧
      ops = [.rename path path_to] := by
  rw [dispatch_rename_eq, bind_eq_ok] at h
  obtain ⟨⟨i2, path⟩, hp, h⟩ := h
  rw [bind_eq_ok] at h
  obtain ⟨⟨j, path_to⟩, hq, h⟩ := h
  injection h with h'
  injection h' with hm ho
  exact ⟨i2, j, path, path_to, hp, hq, hm.symm, ho.symm⟩

/-- Source `cmdKind` of the rename command name. -/
lemma cmdKind_rename : cmdKind "BTRFS_SEND_C_RENAME" = "rename" := rfl

/-- No attempt to read the clone transaction-id attribute can succeed: the
name the clone schema expects does not occur in `send_attrs`, so the
equality check against the table entry for any attribute id fails. -/
lemma tlv_get_u64_transid (s : List Nat) (i : Nat) (v : Nat × Nat) :
    tlv_get_u64 s "BTRFS_SEND_A_CLONE_TRANSID" i ≠ .ok v := by
  unfold tlv_get_u64
  rcases h1 : readAttrHead s i with _ | ⟨attr, lAttr⟩
  · simp
  rcases h2 : send_attrs[attr]? with _ | name
  · simp [h2]
  · have hmem : name ∈ send_attrs := List.getElem?_mem h2
    have hne : ¬(name = "BTRFS_SEND_A_CLONE_TRANSID") := by
      intro hEq; rw [hEq] at hmem; exact absurd hmem (by decide)
    simp [h2, hne]

/-- Every command a continuing dispatch appends is neither the terminator
nor a clone entry, and the `modified` update is a fold of `appendEntry` puts
all carrying the current command counter. -/
lemma dispatch_normal_spec {s : List Nat} {st : DState} {c : String}
    {mod : Modified} {ops : List Op}
    (h : dispatch s st c = .ok (.normal mod ops)) :
    (∀ o ∈ ops, o.isEnd = false ∧ o.isClone = false) ∧
    ∃ ups : List (List Nat × String),
      mod = ups.foldl (fun m pk => appendEntry m pk.1 (pk.2, st.count)) st.modified := by
  unfold dispatch at h
  by_cases hc0 : c = "BTRFS_SEND_C_RENAME"
  · rw [if_pos hc0] at h
    simp only [bind_eq_ok, Except.ok.injEq, DispatchOut.normal.injEq] at h
    obtain ⟨d1, -, d2, -, hm, ho⟩ := h
    subst hm; subst ho
    exact ⟨by simp [Op.isEnd, Op.isClone], ⟨[(d2.2, "renamed_from"), (d1.2, cmdKind c)], rfl⟩⟩
  rw [if_neg hc0] at h
  by_cases hc1 : c = "BTRFS_SEND_C_SYMLINK"
  · rw [if_pos hc1] at h
    simp only [bind_eq_ok, Except.ok.injEq, DispatchOut.normal.injEq] at h
    obtain ⟨d1, -, d2, -, hm, ho⟩ := h
    subst hm; subst ho
    exact ⟨by simp [Op.isEnd, Op.isClone], ⟨[(d1.2, cmdKind c)], rfl⟩⟩
  rw [if_neg hc1] at h
  by_cases hc2 : c = "BTRFS_SEND_C_LINK"
  · rw [if_pos hc2] at h
    simp only [bind_eq_ok, Except.ok.injEq, DispatchOut.normal.injEq] at h
    obtain ⟨d1, -, d2, -, hm, ho⟩ := h
    subst hm; subst ho
    exact ⟨by simp [Op.isEnd, Op.isClone], ⟨[(d1.2, cmdKind c)], rfl⟩⟩
  rw [if_neg hc2] at h
  by_cases hc3 : c = "BTRFS_SEND_C_UTIMES"
  · rw [if_pos hc3] at h
    simp only [bind_eq_ok, Except.ok.injEq, DispatchOut.normal.injEq] at h
    obtain ⟨d1, -, d2, -, d3, -, d4, -, hm, ho⟩ := h
    subst hm; subst ho
    exact ⟨by simp [Op.isEnd, Op.isClone], ⟨[(d1.2, cmdKind c)], rfl⟩⟩
  rw [if_neg hc3] at h
  by_cases hc4 : c ∈ mk_rm_cmds
  · rw [if_pos hc4] at h
    simp only [bind_eq_ok, Except.ok.injEq, DispatchOut.normal.injEq] at h
    obtain ⟨d1, -, hm, ho⟩ := h
    subst hm; subst ho
    exact ⟨by simp [Op.isEnd, Op.isClone], ⟨[(d1.2, cmdKind c)], rfl⟩⟩
  rw [if_neg hc4] at h
  by_cases hc5 : c = "BTRFS_SEND_C_TRUNCATE"
  · rw [if_pos hc5] at h
    simp only [bind_eq_ok, Except.ok.injEq, DispatchOut.normal.injEq] at h
    obtain ⟨d1, -, d2, -, hm, ho⟩ := h
    subst hm; subst ho
    exact ⟨by simp [Op.isEnd, Op.isClone], ⟨[(d1.2, cmdKind c)], rfl⟩⟩
  rw [if_neg hc5] at h
  by_cases hc6 : c = "BTRFS_SEND_C_SNAPSHOT"
  · rw [if_pos hc6] at h
    simp only [bind_eq_ok, Except.ok.injEq, DispatchOut.normal.injEq] at h
    obtain ⟨d1, -, d2, -, d3, -, d4, -, d5, -, hm, ho⟩ := h
    subst hm; subst ho
    exact ⟨by simp [Op.isEnd, Op.isClone], ⟨[(d1.2, cmdKind c)], rfl⟩⟩
  rw [if_neg hc6] at h
  by_cases hc7 : c = "BTRFS_SEND_C_SUBVOL"
  · rw [if_pos hc7] at h
    simp only [bind_eq_ok, Except.ok.injEq, DispatchOut.normal.injEq] at h
    obtain ⟨d1, -, d2, -, d3, -, hm, ho⟩ := h
    subst hm; subst ho
    exact ⟨by simp [Op.isEnd, Op.isClone], ⟨[(d1.2, cmdKind c)], rfl⟩⟩
  rw [if_neg hc7] at h
  by_cases hc8 : c = "BTRFS_SEND_C_MKNOD"
  · rw [if_pos hc8] at h
    simp only [bind_eq_ok, Except.ok.injEq, DispatchOut.normal.injEq] at h
    obtain ⟨d1, -, d2, -, d3, -, hm, ho⟩ := h
    subst hm; subst ho
    exact ⟨by simp [Op.isEnd, Op.isClone], ⟨[(d1.2, cmdKind c)], rfl⟩⟩
  rw [if_neg hc8] at h
  by_cases hc9 : c = "BTRFS_SEND_C_SET_XATTR"
  · rw [if_pos hc9] at h
    simp only [bind_eq_ok, Except.ok.injEq, DispatchOut.normal.injEq] at h
    obtain ⟨d1, -, d2, -, d3, -, hm, ho⟩ := h
    subst hm; subst ho
    exact ⟨by simp [Op.isEnd, Op.isClone], ⟨[(d1.2, cmdKind c)], rfl⟩⟩
  rw [if_neg hc9] at h
  by_cases hc10 : c = "BTRFS_SEND_C_REMOVE_XATTR"
  · rw [if_pos hc10] at h
    simp only [bind_eq_ok, Except.ok.injEq, DispatchOut.normal.injEq] at h
    obtain ⟨d1, -, d2, -, hm, ho⟩ := h
    subst hm; subst ho
    exact ⟨by simp [Op.isEnd, Op.isClone], ⟨[(d1.2, cmdKind c)], rfl⟩⟩
  rw [if_neg hc10] at h
  by_cases hc11 : c = "BTRFS_SEND_C_WRITE"
  · rw [if_pos hc11] at h
    simp only [bind_eq_ok, Except.ok.injEq, DispatchOut.normal.injEq] at h
    obtain ⟨d1, -, d2, -, d3, -, hm, ho⟩ := h
    subst hm; subst ho
    exact ⟨by simp [Op.isEnd, Op.isClone], ⟨[(d1.2, cmdKind c)], rfl⟩⟩
  rw [if_neg hc11] at h
  by_cases hc12 : c = "BTRFS_SEND_C_CLONE"
  · rw [if_pos hc12] at h
    simp only [bind_eq_ok, Except.ok.injEq, DispatchOut.normal.injEq] at h
    obtain ⟨d1, -, d2, -, d3, -, d4, -, d5, h5, -⟩ := h
    exact absurd h5 (tlv_get_u64_transid _ _ _)
  rw [if_neg hc12] at h
  by_cases hc13 : c = "BTRFS_SEND_C_CHMOD"
  · rw [if_pos hc13] at h
    simp only [bind_eq_ok, Except.ok.injEq, DispatchOut.normal.injEq] at h
    obtain ⟨d1, -, d2, -, hm, ho⟩ := h
    subst hm; subst ho
    exact ⟨by simp [Op.isEnd, Op.isClone], ⟨[(d1.2, cmdKind c)], rfl⟩⟩
  rw [if_neg hc13] at h
  by_cases hc14 : c = "BTRFS_SEND_C_CHOWN"
  · rw [if_pos hc14] at h
    simp only [bind_eq_ok, Except.ok.injEq, DispatchOut.normal.injEq] at h
    obtain ⟨d1, -, d2, -, d3, -, hm, ho⟩ := h
    subst hm; subst ho
    exact ⟨by simp [Op.isEnd, Op.isClone], ⟨[(d1.2, cmdKind c)], rfl⟩⟩
  rw [if_neg hc14] at h
  by_cases hc15 : c = "BTRFS_SEND_C_UPDATE_EXTENT"
  · rw [if_pos hc15] at h
    simp only [bind_eq_ok, Except.ok.injEq, DispatchOut.normal.injEq] at h
    obtain ⟨d1, -, d2, -, d3, -, hm, ho⟩ := h
    subst hm; subst ho
    exact ⟨by simp [Op.isEnd, Op.isClone], ⟨[(d1.2, cmdKind c)], rfl⟩⟩
  rw [if_neg hc15] at h
  by_cases hc16 : c = "BTRFS_SEND_C_END"
  · rw [if_pos hc16] at h
    exact absurd h (by simp)
  rw [if_neg hc16] at h
  by_cases hc17 : c = "BTRFS_SEND_C_UNSPEC"
  · rw [if_pos hc17] at h
    simp only [Except.ok.injEq, DispatchOut.normal.injEq] at h
    obtain ⟨hm, ho⟩ := h
    subst hm; subst ho
    exact ⟨by simp, ⟨[], rfl⟩⟩
  rw [if_neg hc17] at h
  exact absurd h (by simp)

/-- Claim **C6** (corrected).  Header parsing fails exactly when the buffer is
shorter than 17 bytes or its first 12 bytes differ from the magic token;
the null byte at offset 12 is read but never validated, and otherwise the
version is the little-endian u32 at offset 13.  (The claim additionally
required the null byte to be zero; `claim_C6_counterexample` refutes that.) -/
theorem claim_C6 (s : List Nat) :
    (parseHeader s = none ↔ s.length < 17 ∨ sliceL s 0 12 ≠ magicBytes) ∧
    (17 ≤ s.length → sliceL s 0 12 = magicBytes →
      parseHeader s = readU32 s 13 ∧ ∃ v, parseHeader s = some v) := by
  constructor
  · unfold parseHeader
    by_cases h1 : s.length < 17
    · simp [h1]
    · by_cases h2 : sliceL s 0 12 = magicBytes
      · obtain ⟨v, hv⟩ := @readLE_isSome s 4 13 (by omega)
        simp [h1, h2, readU32, hv]
      · simp [h1, h2]
  · intro h1 h2
    unfold parseHeader
    obtain ⟨v, hv⟩ := @readLE_isSome s 4 13 (by omega)
    simp [Nat.not_lt.mpr h1, h2, readU32, hv]

/-- Claim **C6** counterexample: a 17-byte buffer whose first 13 bytes are *not*
magic-plus-zero (the null byte is 7) still parses, with version 1, though
the claim says header parsing must fail on it. -/
theorem claim_C6_counterexample :
    parseHeader badNullHeader = some 1 ∧
    17 ≤ badNullHeader.length ∧
    sliceL badNullHeader 0 13 ≠ magicBytes ++ [0] := by decide

/-- Claim **C6** witness at a concrete well-formed header. -/
theorem claim_C6_witness :
    parseHeader goodHeader = readU32 goodHeader 13 ∧ ∃ v, parseHeader goodHeader = some v :=
  (claim_C6 goodHeader).2 (by decide) (by decide)

/-- Claim **C4** (confirmed).  A continuing loop iteration advances the cursor by
the 10-byte header plus the declared body length read from the header —
whatever the attribute schema consumed — and an UNSPEC command does so while
appending nothing to the operation list and nothing to any path history. -/
theorem claim_C4 (s : List Nat) (st st' : DState)
    (h : stepCmd s st = .ok (.next st')) :
    (∃ l_cmd, readU32 s st.idx = some l_cmd ∧ st'.idx = st.idx + l_head + l_cmd) ∧
    (∀ cid, readU16 s (st.idx + 4) = some cid →
      send_cmds[cid]? = some "BTRFS_SEND_C_UNSPEC" →
      st'.commands = st.commands ∧ st'.modified = st.modified ∧
      st'.count = st.count + 1) := by
  obtain ⟨l_cmd, cid, command, mod, ops, h1, h2, h4, h5, hst⟩ := stepCmd_next h
  constructor
  · exact ⟨l_cmd, h1, by rw [hst]⟩
  · intro cid' hcid' hlook
    rw [hcid'] at h2
    injection h2 with hc
    subst hc
    rw [hlook] at h4
    injection h4 with hcmd
    subst hcmd
    rw [dispatch_unspec] at h5
    injection h5 with h5'
    injection h5' with hm ho
    subst hm
    subst ho
    rw [hst]
    exact ⟨by simp, rfl, rfl⟩

/-- Claim **C4** witness: the UNSPEC command at the head of `unspecRenameStream`
advances the cursor from 17 to 27 and records nothing. -/
theorem claim_C4_witness :
    (∃ l_cmd, readU32 unspecRenameStream 17 = some l_cmd ∧ (27 : Nat) = 17 + l_head + l_cmd) ∧
    (∀ cid, readU16 unspecRenameStream (17 + 4) = some cid →
      send_cmds[cid]? = some "BTRFS_SEND_C_UNSPEC" →
      ([] : List Op) = [] ∧ ([] : Modified) = [] ∧ (1 : Nat) = 0 + 1) :=
  claim_C4 unspecRenameStream ⟨17, 0, [], []⟩ ⟨27, 1, [], []⟩ (by decide)

/-- Claim **C5** (confirmed).  Whenever the attribute id read at a TLV position
resolves to a table name different from the one the schema expects there,
every primitive TLV reader aborts with the attribute-mismatch error, and any
failing loop iteration aborts the whole decode with that error — so no
path-history mapping or operation list is produced for the stream. -/
theorem claim_C5 (s : List Nat) (attr_type : String) (i attr lAttr : Nat)
    (name : String)
    (h1 : readAttrHead s i = some (attr, lAttr))
    (h2 : send_attrs[attr]? = some name) (h3 : name ≠ attr_type) :
    tlv_get_string s attr_type i = .error .attrMismatch ∧
    tlv_get s attr_type i = .error .attrMismatch ∧
    tlv_get_u64 s attr_type i = .error .attrMismatch ∧
    tlv_get_uuid s attr_type i = .error .attrMismatch ∧
    tlv_get_timespec s attr_type i = .error .attrMismatch ∧
    ∀ fuel st e, stepCmd s st = .error e → decodeLoop s (fuel + 1) st = .error e := by
  refine ⟨?_, ?_, ?_, ?_, ?_, ?_⟩
  · simp [tlv_get_string, h1, h2, h3]
  · simp [tlv_get, h1, h2, h3]
  · simp [tlv_get_u64, h1, h2, h3]
  · simp [tlv_get_uuid, h1, h2, h3]
  · simp [tlv_get_timespec, h1, h2, h3]
  · intro fuel st e h
    simp [decodeLoop, h]

/-- Claim **C5** witness: a truncate command carrying attribute id 4 (SIZE) where
PATH is expected aborts the whole decode. -/
theorem claim_C5_witness :
    tlv_get_string badAttrStream "BTRFS_SEND_A_PATH" 27 = .error .attrMismatch ∧
    decode badAttrStream = .error .attrMismatch :=
  ⟨(claim_C5 badAttrStream "BTRFS_SEND_A_PATH" 27 4 1 "BTRFS_SEND_A_SIZE"
      (by decide) (by decide) (by decide)).1,
    by decide⟩

/-- Claim **C1** (corrected).  A decoded rename appends exactly two history
entries — `renamed_from` on the destination, `rename` on the source — both
carrying the loop counter `st.count`; the rename lands at position
`st.commands.length` of the operation list, so the recorded number is its
operation-list index exactly when the counter equals the list length (true
unless an UNSPEC command was processed earlier, since UNSPEC advances the
counter without appending an operation; `claim_C1_counterexample` shows the
mismatch). -/
theorem claim_C1 (s : List Nat) (st st' : DState) (cid : Nat)
    (hcid : readU16 s (st.idx + 4) = some cid)
    (hcmd : send_cmds[cid]? = some "BTRFS_SEND_C_RENAME")
    (h : stepCmd s st = .ok (.next st')) :
    ∃ path path_to,
      st'.modified =
        appendEntry (appendEntry st.modified path_to ("renamed_from", st.count))
          path ("rename", st.count) ∧
      st'.commands = st.commands ++ [.rename path path_to] ∧
      st'.commands[st.commands.length]? = some (.rename path path_to) ∧
      (st.count = st.commands.length →
        st'.commands[st.count]? = some (.rename path path_to)) := by
  obtain ⟨l_cmd, cid', command, mod, ops, h1, h2, h4, h5, hst⟩ := stepCmd_next h
  rw [hcid] at h2
  injection h2 with hc
  subst hc
  rw [hcmd] at h4
  injection h4 with hcmd'
  subst hcmd'
  obtain ⟨i2, j, path, path_to, hp, hq, hm, ho⟩ := dispatch_rename h5
  subst hm
  subst ho
  refine ⟨path, path_to, ?_, ?_, ?_, ?_⟩
  · rw [hst]
  · rw [hst]
  · rw [hst]
    exact List.getElem?_concat_length _ _
  · intro hcount
    rw [hst, hcount]
    exact List.getElem?_concat_length _ _

/-- Claim **C1** counterexample: after an UNSPEC command, the rename's two history
entries carry command index 1, but the rename operation sits at index 0 of
the operation list, not 1 — the claim's parenthetical identification fails. -/
theorem claim_C1_counterexample :
    decode unspecRenameStream =
      .ok ([([98], [("renamed_from", 1)]), ([97], [("rename", 1)])],
        [.rename [97] [98], .end_ 57 57]) ∧
    [Op.rename [97] [98], Op.end_ 57 57].findIdx? Op.isRename = some 0 ∧
    (1 : Nat) ≠ 0 := ⟨by decide, by decide, by decide⟩

/-- Claim **C1** witness at the concrete one-rename stream. -/
theorem claim_C1_witness :
    ∃ path path_to,
      (⟨37, 1, [Op.rename [97] [98]],
        [([98], [("renamed_from", 0)]), ([97], [("rename", 0)])]⟩ : DState).modified =
        appendEntry (appendEntry ([] : Modified) path_to ("renamed_from", 0))
          path ("rename", 0) ∧
      ([Op.rename [97] [98]] : List Op) = [] ++ [.rename path path_to] ∧
      ([Op.rename [97] [98]] : List Op)[(0 : Nat)]? = some (.rename path path_to) ∧
      ((0 : Nat) = 0 → ([Op.rename [97] [98]] : List Op)[(0 : Nat)]? =
        some (.rename path path_to)) :=
  claim_C1 renameStream ⟨17, 0, [], []⟩
    ⟨37, 1, [Op.rename [97] [98]], [([98], [("renamed_from", 0)]), ([97], [("rename", 0)])]⟩
    9 (by decide) (by decide) (by decide)

/-- Runs of the loop that start with no terminator recorded end with exactly
one terminator, recorded as `(cursor-at-terminator + l_head, buffer length)`
by the final iteration. -/
lemma decodeLoop_end_spec (s : List Nat) :
    ∀ (fuel : Nat) (st : DState) (m : Modified) (cmds : List Op),
      (∀ o ∈ st.commands, o.isEnd = false) →
      decodeLoop s fuel st = .ok (m, cmds) →
      cmds.countP Op.isEnd = 1 ∧
      ∃ i, cmds.getLast? = some (.end_ (i + l_head) s.length) := by
  intro fuel
  induction fuel with
  | zero => intro st m cmds _ h; exact absurd h (by simp [decodeLoop])
  | succ fuel ih =>
    intro st m cmds hno h
    unfold decodeLoop at h
    rcases hs : stepCmd s st with e | so <;> rw [hs] at h
    · exact absurd h (by simp)
    rcases so with st' | st'
    · simp only at h
      obtain ⟨l_cmd, cid, command, mod, ops, -, -, -, hd, hst⟩ := stepCmd_next hs
      refine ih st' m cmds ?_ h
      intro o ho
      rw [hst] at ho
      simp only [List.mem_append] at ho
      rcases ho with ho | ho
      · exact hno o ho
      · exact ((dispatch_normal_spec hd).1 o ho).1
    · simp only [Except.ok.injEq, Prod.mk.injEq] at h
      obtain ⟨-, hcmds⟩ := stepCmd_done hs
      obtain ⟨hm, hc⟩ := h
      subst hm
      subst hc
      rw [hcmds]
      constructor
      · rw [List.countP_append]
        have h0 : st.commands.countP Op.isEnd = 0 := by
          rw [List.countP_eq_zero]
          intro o ho
          simp [hno o ho]
        simp [h0, Op.isEnd, List.countP_cons]
      · exact ⟨st.idx, by simp⟩

/-- Claim **C3** (confirmed).  The 27-byte header-plus-terminator buffer decodes
to the empty path-history mapping and the one-element operation list whose
terminator records the range `(27, 27)`; in general, a successful decode
produces exactly one terminator entry, final in the list, recording the
cursor just past the terminator's header together with the buffer length. -/
theorem claim_C3 :
    decode endOnlyStream = .ok ([], [.end_ 27 27]) ∧
    ∀ (s : List Nat) (m : Modified) (cmds : List Op),
      decode s = .ok (m, cmds) →
      cmds.countP Op.isEnd = 1 ∧
      ∃ i, cmds.getLast? = some (.end_ (i + l_head) s.length) :=
  ⟨by decide, fun s m cmds h =>
    decodeLoop_end_spec s (s.length + 1) ⟨17, 0, [], []⟩ m cmds (by simp) h⟩

/-- Claim **C3** witness at the concrete header-plus-terminator buffer. -/
theorem claim_C3_witness :
    ([Op.end_ 27 27] : List Op).countP Op.isEnd = 1 ∧
    ∃ i, ([Op.end_ 27 27] : List Op).getLast? =
      some (.end_ (i + l_head) endOnlyStream.length) :=
  claim_C3.2 endOnlyStream [] [Op.end_ 27 27] (by decide)

/-- The clone branch of `dispatch`, unfolded. -/
lemma dispatch_clone_eq (s : List Nat) (st : DState) :
    dispatch s st "BTRFS_SEND_C_CLONE" =
      (tlv_get_string s "BTRFS_SEND_A_PATH" (st.idx + l_head) >>= fun d1 =>
       tlv_get_u64 s "BTRFS_SEND_A_FILE_OFFSET" d1.1 >>= fun d2 =>
       tlv_get_u64 s "BTRFS_SEND_A_CLONE_LEN" d2.1 >>= fun d3 =>
       tlv_get_uuid s "BTRFS_SEND_A_CLONE_UUID" d3.1 >>= fun d4 =>
       tlv_get_u64 s "BTRFS_SEND_A_CLONE_TRANSID" d4.1 >>= fun d5 =>
       tlv_get_string s "BTRFS_SEND_A_CLONE_PATH" (st.idx + l_head) >>= fun d6 =>
       tlv_get_u64 s "BTRFS_SEND_A_CLONE_OFFSET" d6.1 >>= fun _d7 =>
       .ok (.normal (appendEntry st.modified d1.2 (cmdKind "BTRFS_SEND_C_CLONE", st.count))
         [.clone d2.2 d3.2 d4.2 d5.2 d6.2])) := rfl

/-- Runs of the loop that start clone-free stay clone-free. -/
lemma decodeLoop_no_clone (s : List Nat) :
    ∀ (fuel : Nat) (st : DState) (m : Modified) (cmds : List Op),
      (∀ o ∈ st.commands, o.isClone = false) →
      decodeLoop s fuel st = .ok (m, cmds) →
      ∀ op ∈ cmds, op.isClone = false := by
  intro fuel
  induction fuel with
  | zero => intro st m cmds _ h; exact absurd h (by simp [decodeLoop])
  | succ fuel ih =>
    intro st m cmds hno h
    unfold decodeLoop at h
    rcases hs : stepCmd s st with e | so <;> rw [hs] at h
    · exact absurd h (by simp)
    rcases so with st' | st'
    · simp only at h
      obtain ⟨l_cmd, cid, command, mod, ops, -, -, -, hd, hst⟩ := stepCmd_next hs
      refine ih st' m cmds ?_ h
      intro o ho
      rw [hst] at ho
      simp only [List.mem_append] at ho
      rcases ho with ho | ho
      · exact hno o ho
      · exact ((dispatch_normal_spec hd).1 o ho).2
    · simp only [Except.ok.injEq, Prod.mk.injEq] at h
      obtain ⟨-, hcmds⟩ := stepCmd_done hs
      obtain ⟨hm, hc⟩ := h
      subst hm
      subst hc
      rw [hcmds]
      intro op hop
      simp only [List.mem_append, List.mem_singleton] at hop
      rcases hop with hop | hop
      · exact hno op hop
      · subst hop; rfl

/-- Claim **C9** (confirmed).  The attribute name the clone schema expects for the
transaction id is absent from `send_attrs`, so that TLV read can never
succeed, the clone branch of `dispatch` can never succeed, and a successful
decode never contains a clone operation. -/
theorem claim_C9 :
    ("BTRFS_SEND_A_CLONE_TRANSID" ∉ send_attrs) ∧
    (∀ (s : List Nat) (i : Nat) (v : Nat × Nat),
      tlv_get_u64 s "BTRFS_SEND_A_CLONE_TRANSID" i ≠ .ok v) ∧
    (∀ (s : List Nat) (st : DState) (d : DispatchOut),
      dispatch s st "BTRFS_SEND_C_CLONE" ≠ .ok d) ∧
    (∀ (s : List Nat) (m : Modified) (cmds : List Op),
      decode s = .ok (m, cmds) → ∀ op ∈ cmds, op.isClone = false) := by
  refine ⟨by decide, tlv_get_u64_transid, ?_, ?_⟩
  · intro s st d h
    rw [dispatch_clone_eq] at h
    simp only [bind_eq_ok] at h
    obtain ⟨d1, -, d2, -, d3, -, d4, -, d5, h5, -⟩ := h
    exact absurd h5 (tlv_get_u64_transid _ _ _)
  · intro s m cmds h
    exact decodeLoop_no_clone s (s.length + 1) ⟨17, 0, [], []⟩ m cmds (by simp) h

/-- Claim **C9** witness: the header-plus-terminator stream decodes successfully
and its operation list is clone-free. -/
theorem claim_C9_witness :
    ∀ op ∈ ([Op.end_ 27 27] : List Op), op.isClone = false :=
  claim_C9.2.2.2 endOnlyStream [] [Op.end_ 27 27] (by decide)

/-- First-entry indices are bounded by the global bound. -/
lemma firstIdx_le {m : Modified} {c : Nat}
    (h1 : ∀ pe ∈ m, pe.2 ≠ []) (h3 : ∀ pe ∈ m, ∀ e ∈ pe.2, e.2 ≤ c) :
    ∀ x ∈ m.map firstIdx, x ≤ c := by
  intro x hx
  obtain ⟨pe, hpe, rfl⟩ := List.mem_map.mp hx
  rcases he : pe.2 with _ | ⟨e, tl⟩
  · exact absurd he (h1 pe hpe)
  · have : firstIdx pe = e.2 := by simp [firstIdx, he]
    rw [this]
    exact h3 pe hpe e (by rw [he]; exact List.mem_cons_self e tl)

/-- Source `appendEntry` with an entry at the current bound preserves the ordering
invariant, and extends the first-indices list by at most the new bound. -/
lemma appendEntry_invLe {m : Modified} {c : Nat} (p : List Nat) (k : String)
    (h : InvLe m c) :
    InvLe (appendEntry m p (k, c)) c ∧
    ((appendEntry m p (k, c)).map firstIdx = m.map firstIdx ∨
     (appendEntry m p (k, c)).map firstIdx = m.map firstIdx ++ [c]) := by
  induction m with
  | nil =>
    refine ⟨⟨?_, ?_, ?_, ?_⟩, .inr ?_⟩ <;> simp [appendEntry, firstIdx]
  | cons qe rest ih =>
    obtain ⟨q, es⟩ := qe
    obtain ⟨h1, h2, h3, h4⟩ := h
    have hesne : es ≠ [] := h1 (q, es) (List.mem_cons_self _ _)
    have hrest : InvLe rest c :=
      ⟨fun pe hpe => h1 pe (List.mem_cons_of_mem _ hpe),
       fun pe hpe => h2 pe (List.mem_cons_of_mem _ hpe),
       fun pe hpe => h3 pe (List.mem_cons_of_mem _ hpe),
       by simpa using h4.tail⟩
    by_cases hq : q = p
    · -- existing key: the entry list grows at its tail
      have happ : appendEntry ((q, es) :: rest) p (k, c) =
          (q, es ++ [(k, c)]) :: rest := by simp [appendEntry, hq]
      have hfi : firstIdx (q, es ++ [(k, c)]) = firstIdx (q, es) := by
        rcases es with _ | ⟨e, tl⟩
        · exact absurd rfl hesne
        · simp [firstIdx]
      refine ⟨⟨?_, ?_, ?_, ?_⟩, .inl ?_⟩
      · intro pe hpe
        rw [happ] at hpe
        rcases List.mem_cons.mp hpe with rfl | hpe
        · simp
        · exact h1 pe (List.mem_cons_of_mem _ hpe)
      · intro pe hpe
        rw [happ] at hpe
        rcases List.mem_cons.mp hpe with rfl | hpe
        · simp only [List.map_append]
          rw [List.chain'_append]
          refine ⟨h2 (q, es) (List.mem_cons_self _ _), by simp, ?_⟩
          intro x hx y hy
          simp only [List.map_cons, List.map_nil, List.head?_cons,
            Option.mem_def, Option.some.injEq] at hy
          subst hy
          have hxm : x ∈ es.map (fun e => e.2) := List.mem_of_mem_getLast? hx
          obtain ⟨e, hem, rfl⟩ := List.mem_map.mp hxm
          exact h3 (q, es) (List.mem_cons_self _ _) e hem
        · exact h2 pe (List.mem_cons_of_mem _ hpe)
      · intro pe hpe
        rw [happ] at hpe
        rcases List.mem_cons.mp hpe with rfl | hpe
        · intro e he
          rcases List.mem_append.mp he with he | he
          · exact h3 (q, es) (List.mem_cons_self _ _) e he
          · simp only [List.mem_singleton] at he
            subst he
            exact le_refl c
        · exact h3 pe (List.mem_cons_of_mem _ hpe) 
      · rw [happ]
        simp only [List.map_cons, hfi]
        exact h4
      · rw [happ]
        simp only [List.map_cons, hfi]
    · -- new or later key: recurse on the tail
      have happ : appendEntry ((q, es) :: rest) p (k, c) =
          (q, es) :: appendEntry rest p (k, c) := by simp [appendEntry, hq]
      obtain ⟨⟨i1, i2, i3, i4⟩, iheads⟩ := ih hrest
      have hq_head : ∀ y ∈ (rest.map firstIdx).head?, firstIdx (q, es) ≤ y := by
        have := (List.chain'_cons'.mp (by simpa using h4)).1
        exact this
      refine ⟨⟨?_, ?_, ?_, ?_⟩, ?_⟩
      · intro pe hpe
        rw [happ] at hpe
        rcases List.mem_cons.mp hpe with rfl | hpe
        · exact hesne
        · exact i1 pe hpe
      · intro pe hpe
        rw [happ] at hpe
        rcases List.mem_cons.mp hpe with rfl | hpe
        · exact h2 (q, es) (List.mem_cons_self _ _)
        · exact i2 pe hpe
      · intro pe hpe
        rw [happ] at hpe
        rcases List.mem_cons.mp hpe with rfl | hpe
        · exact h3 (q, es) (List.mem_cons_self _ _)
        · exact i3 pe hpe
      · rw [happ]
        simp only [List.map_cons]
        rw [List.chain'_cons']
        refine ⟨?_, i4⟩
        rcases iheads with hh | hh
        · rw [hh]
          exact hq_head
        · rw [hh]
          intro y hy
          rcases hr : rest.map firstIdx with _ | ⟨z, zs⟩
          · simp only [hr, List.nil_append, List.head?_cons, Option.mem_def,
              Option.some.injEq] at hy
            subst hy
            exact firstIdx_le h1 h3 _ (List.mem_map.mpr ⟨(q, es), List.mem_cons_self _ _, rfl⟩)
          · simp only [hr, List.cons_append, List.head?_cons, Option.mem_def,
              Option.some.injEq] at hy
            subst hy
            exact hq_head z (by simp [hr])
      · rw [happ]
        simp only [List.map_cons]
        rcases iheads with hh | hh
        · rw [hh]; exact .inl rfl
        · rw [hh]; exact .inr rfl

/-- A fold of `appendEntry` puts at the current bound preserves the ordering
invariant. -/
lemma foldl_appendEntry_invLe {c : Nat} :
    ∀ (ups : List (List Nat × String)) (m : Modified), InvLe m c →
      InvLe (ups.foldl (fun m pk => appendEntry m pk.1 (pk.2, c)) m) c := by
  intro ups
  induction ups with
  | nil => intro m h; exact h
  | cons u us ih =>
    intro m h
    exact ih _ (appendEntry_invLe u.1 u.2 h).1

/-- The invariant is monotone in the bound. -/
lemma InvLe_mono {m : Modified} {c d : Nat} (h : InvLe m c) (hcd : c ≤ d) :
    InvLe m d :=
  ⟨h.1, h.2.1, fun pe hpe e he => le_trans (h.2.2.1 pe hpe e he) hcd, h.2.2.2⟩

/-- The decode loop preserves the ordering invariant up to its final
counter value. -/
lemma decodeLoop_invLe (s : List Nat) :
    ∀ (fuel : Nat) (st : DState) (m : Modified) (cmds : List Op),
      InvLe st.modified st.count →
      decodeLoop s fuel st = .ok (m, cmds) →
      ∃ c, InvLe m c := by
  intro fuel
  induction fuel with
  | zero => intro st m cmds _ h; exact absurd h (by simp [decodeLoop])
  | succ fuel ih =>
    intro st m cmds hinv h
    unfold decodeLoop at h
    rcases hs : stepCmd s st with e | so <;> rw [hs] at h
    · exact absurd h (by simp)
    rcases so with st' | st'
    · simp only at h
      obtain ⟨l_cmd, cid, command, mod, ops, -, -, -, hd, hst⟩ := stepCmd_next hs
      refine ih st' m cmds ?_ h
      obtain ⟨ups, hups⟩ := (dispatch_normal_spec hd).2
      rw [hst]
      simp only
      rw [hups]
      exact InvLe_mono (foldl_appendEntry_invLe ups st.modified hinv) (Nat.le_succ _)
    · simp only [Except.ok.injEq, Prod.mk.injEq] at h
      obtain ⟨hm, -⟩ := stepCmd_done hs
      obtain ⟨hm', -⟩ := h
      subst hm'
      rw [hm]
      exact ⟨st.count, hinv⟩

/-- Claim **C7** (confirmed).  In a successful decode the path-history mapping
preserves order: a path whose first entry carries a strictly smaller command
index than another's appears strictly earlier in the mapping (and hence in
the renderer's iteration), and each path's own history carries
non-decreasing command indices, i.e. decode order. -/
theorem claim_C7 (s : List Nat) (m : Modified) (cmds : List Op)
    (h : decode s = .ok (m, cmds)) :
    (∀ (i j : Nat) (pi pj : List Nat × List Entry),
      m[i]? = some pi → m[j]? = some pj → firstIdx pi < firstIdx pj → i < j) ∧
    ∀ pe ∈ m, List.Chain' (· ≤ ·) (pe.2.map (fun e => e.2)) := by
  obtain ⟨c, hne, hch, hbd, hheads⟩ :=
    decodeLoop_invLe s (s.length + 1) ⟨17, 0, [], []⟩ m cmds
      (by refine ⟨?_, ?_, ?_, ?_⟩ <;> simp) h
  refine ⟨?_, hch⟩
  intro i j pi pj hi hj hlt
  by_contra hij
  push_neg at hij
  obtain ⟨hi', hgi⟩ := List.getElem?_eq_some.mp hi
  obtain ⟨hj', hgj⟩ := List.getElem?_eq_some.mp hj
  have hpw := List.chain'_iff_pairwise.mp hheads
  rcases Nat.lt_or_ge j i with hji | hji
  · have hle := List.pairwise_iff_getElem.mp hpw j i
      (by simpa using hj') (by simpa using hi') hji
    rw [List.getElem_map, List.getElem_map] at hle
    rw [hgi, hgj] at hle
    omega
  · have : i = j := Nat.le_antisymm hji hij
    subst this
    rw [hgi] at hgj
    subst hgj
    exact absurd hlt (lt_irrefl _)

/-- Claim **C7** witness at the concrete two-mkfile stream: path "a" (first entry
at command 0) precedes path "b" (first entry at command 1). -/
theorem claim_C7_witness :
    (0 : Nat) < 1 ∧
    ∀ pe ∈ ([([97], [("mkfile", 0)]), ([98], [("mkfile", 1)])] : Modified),
      List.Chain' (· ≤ ·) (pe.2.map (fun e => e.2)) := by
  have h := claim_C7 twoMkfileStream
    [([97], [("mkfile", 0)]), ([98], [("mkfile", 1)])]
    [.str "mkfile", .str "mkfile", .end_ 57 57] (by decide)
  exact ⟨h.1 0 1 ([97], [("mkfile", 0)]) ([98], [("mkfile", 1)])
    (by decide) (by decide) (by decide), h.2⟩

/-- Claim **C8** (confirmed).  In filter mode a temporary-named path with at least
two history entries is fully suppressed exactly when its first two entries
form one of the two recognised ephemeral shapes (mkfile/mkdir/symlink then
rename, or renamed_from then rmdir); otherwise it is still printed, as the
single flagged anomaly line. -/
theorem claim_C8 (cmds : List Op) (path : List Nat) (acts : List Entry)
    (a0 a1 : Entry)
    (htmp : isTmp path = true)
    (h0 : acts[0]? = some a0) (h1 : acts[1]? = some a1) :
    (renderPath true cmds path acts = .ok [] ↔
      ((a0.1 = "mkfile" ∨ a0.1 = "mkdir" ∨ a0.1 = "symlink") ∧ a1.1 = "rename") ∨
      (a0.1 = "renamed_from" ∧ a1.1 = "rmdir")) ∧
    (¬(((a0.1 = "mkfile" ∨ a0.1 = "mkdir" ∨ a0.1 = "symlink") ∧ a1.1 = "rename") ∨
       (a0.1 = "renamed_from" ∧ a1.1 = "rmdir")) →
      renderPath true cmds path acts = .ok [anomalyLine path acts]) := by
  unfold renderPath
  simp only [htmp, Bool.true_and, if_true]
  rw [h0]
  by_cases hA : a0.1 = "mkfile" ∨ a0.1 = "mkdir" ∨ a0.1 = "symlink"
  · simp only [if_pos hA]
    rw [h1]
    by_cases hR : a1.1 = "rename"
    · simp only [if_pos hR]
      have hB : ¬(a0.1 = "renamed_from") := by
        rcases hA with h | h | h <;> simp [h]
      constructor
      · simp [hA, hR]
      · intro hcon
        exact absurd (.inl ⟨hA, hR⟩) hcon
    · simp only [if_neg hR]
      constructor
      · constructor
        · intro h
          simp at h
        · intro hsh
          rcases hsh with ⟨-, hR'⟩ | ⟨hB, -⟩
          · exact absurd hR' hR
          · rcases hA with h | h | h <;> rw [h] at hB <;> simp at hB
      · intro _
        trivial
  · simp only [if_neg hA]
    by_cases hB : a0.1 = "renamed_from"
    · simp only [if_pos hB]
      rw [h1]
      by_cases hD : a1.1 = "rmdir"
      · simp only [if_pos hD]
        constructor
        · simp [hB, hD]
        · intro hcon
          exact absurd (.inr ⟨hB, hD⟩) hcon
      · simp only [if_neg hD]
        constructor
        · constructor
          · intro h
            simp at h
          · intro hsh
            rcases hsh with ⟨hA', -⟩ | ⟨-, hD'⟩
            · exact absurd hA' hA
            · exact absurd hD' hD
        · intro _
          trivial
    · simp only [if_neg hB]
      constructor
      · constructor
        · intro h
          simp at h
        · intro hsh
          rcases hsh with ⟨hA', -⟩ | ⟨hB', -⟩
          · exact absurd hA' hA
          · exact absurd hB' hB
      · intro _
        trivial

/-- Claim **C8** witness: the temp path "o1-2-0" with history mkfile-then-rename
is suppressed. -/
theorem claim_C8_witness :
    renderPath true [] [111, 49, 45, 50, 45, 48] [("mkfile", 0), ("rename", 1)] = .ok [] :=
  (claim_C8 [] [111, 49, 45, 50, 45, 48] [("mkfile", 0), ("rename", 1)]
    ("mkfile", 0) ("rename", 1) (by decide) (by decide) (by decide)).1.mpr
    (by simp)

/-- Claim **C10** (corrected).  The Python conditions short-circuit, so for a
temporary-named path with exactly one history entry the renderer reads
`actions[1]` — and crashes with the out-of-range error — exactly when the
single entry's kind is mkfile, mkdir, symlink or renamed_from; any other
single-entry temp path is printed as the anomaly line instead.  (The claim
said the renderer fails for *every* single-entry temp path;
`claim_C10_counterexample` refutes that.) -/
theorem claim_C10 (cmds : List Op) (path : List Nat) (acts : List Entry)
    (a0 : Entry)
    (htmp : isTmp path = true) (hlen : acts.length = 1)
    (h0 : acts[0]? = some a0) :
    (renderPath true cmds path acts = .error .indexError ↔
      (a0.1 = "mkfile" ∨ a0.1 = "mkdir" ∨ a0.1 = "symlink" ∨ a0.1 = "renamed_from")) ∧
    (¬(a0.1 = "mkfile" ∨ a0.1 = "mkdir" ∨ a0.1 = "symlink" ∨ a0.1 = "renamed_from") →
      renderPath true cmds path acts = .ok [anomalyLine path acts]) := by
  have h1 : acts[1]? = none := List.getElem?_eq_none (by omega)
  unfold renderPath
  simp only [htmp, Bool.true_and, if_true]
  rw [h0]
  by_cases hA : a0.1 = "mkfile" ∨ a0.1 = "mkdir" ∨ a0.1 = "symlink"
  · simp only [if_pos hA]
    rw [h1]
    constructor
    · constructor
      · intro _
        rcases hA with h | h | h <;> simp [h]
      · intro _
        trivial
    · intro hcon
      rcases hA with h | h | h <;> simp [h] at hcon
  · simp only [if_neg hA]
    by_cases hB : a0.1 = "renamed_from"
    · simp only [if_pos hB]
      rw [h1]
      constructor
      · constructor
        · intro _
          simp [hB]
        · intro _
          trivial
      · intro hcon
        simp [hB] at hcon
    · simp only [if_neg hB]
      constructor
      · constructor
        · intro h
          simp at h
        · intro hsh
          rcases hsh with h | h | h | h
          · exact absurd (.inl h) hA
          · exact absurd (.inr (.inl h)) hA
          · exact absurd (.inr (.inr h)) hA
          · exact absurd h hB
      · intro _
        trivial

/-- Claim **C10** counterexample: the temp path "o1-2-0" whose single history
entry is a utimes is rendered (as the anomaly line) rather than failing:
the second entry is never read because the conditions short-circuit. -/
theorem claim_C10_counterexample :
    isTmp [111, 49, 45, 50, 45, 48] = true ∧
    ([(("utimes" : String), (0 : Nat))] : List Entry).length = 1 ∧
    renderPath true [] [111, 49, 45, 50, 45, 48] [("utimes", 0)] =
      .ok [anomalyLine [111, 49, 45, 50, 45, 48] [("utimes", 0)]] := by
  refine ⟨by decide, by decide, by decide⟩

/-- Claim **C10** witness: a single-entry temp path whose entry is a mkfile does
crash with the out-of-range error. -/
theorem claim_C10_witness :
    renderPath true [] [111, 49, 45, 50, 45, 48] [("mkfile", 0)] = .error .indexError :=
  (claim_C10 [] [111, 49, 45, 50, 45, 48] [("mkfile", 0)] ("mkfile", 0)
    (by decide) (by decide) (by decide)).1.mpr (by simp)

/-- The head character survives concatenation on the right. -/
lemma head?_data_append (p x : String) {c : Char} (hp : p.data.head? = some c) :
    (p ++ x).data.head? = some c := by
  rw [String.data_append]
  rcases hd : p.data with _ | ⟨c', t⟩
  · rw [hd] at hp
    exact absurd hp (by simp)
  · rw [hd] at hp
    simp only [List.head?_cons, Option.some.injEq] at hp
    subst hp
    rfl

/-- A line whose first character is not `u` is not the collapsed-extents
line. -/
lemma not_extent_of_head {l : String} {c : Char}
    (hd : l.data.head? = some c) (hc : ¬(c = 'u')) : isExtentLine l = false := by
  simp only [isExtentLine, decide_eq_false_iff_not]
  rcases hl : l.data with _ | ⟨c', t⟩
  · rw [hl] at hd
    exact absurd hd (by simp)
  · rw [hl] at hd
    simp only [List.head?_cons, Option.some.injEq] at hd
    subst hd
    intro h
    rw [show (15 : Nat) = 14 + 1 from rfl, List.take_succ_cons] at h
    injection h with h1
    exact hc h1

/-- The flush line is recognised by `isExtentLine`. -/
lemma isExtentLine_extentLine (a b : Nat) : isExtentLine (extentLine a b) = true := by
  simp only [isExtentLine, decide_eq_true_eq, extentLine]
  rw [show "update extents " ++ toString a ++ " -> " ++ toString b =
    "update extents " ++ (toString a ++ " -> " ++ toString b) by
      simp [String.append_assoc]]
  rw [String.data_append]
  exact List.take_left' (by decide)

/-- The renamed-from line is not an extents line. -/
lemma isExtentLine_renamedFromLine (x : String) :
    isExtentLine (renamedFromLine x) = false :=
  not_extent_of_head
    (head?_data_append "renamed from " x
      (show ("renamed from " : String).data.head? = some 'r' by decide))
    (by decide)

/-- The xattr line is not an extents line. -/
lemma isExtentLine_xattrLine (n : String) (d : Nat) :
    isExtentLine (xattrLine n d) = false :=
  not_extent_of_head
    (head?_data_append _ _ (head?_data_append _ _ (head?_data_append "xattr " n
      (show ("xattr " : String).data.head? = some 'x' by decide))))
    (by decide)

/-- The truncate line is not an extents line. -/
lemma isExtentLine_truncateLine (n : Nat) : isExtentLine (truncateLine n) = false :=
  not_extent_of_head
    (head?_data_append "truncate " _
      (show ("truncate " : String).data.head? = some 't' by decide))
    (by decide)

/-- The owner line is not an extents line. -/
lemma isExtentLine_ownerLine (u g : Nat) : isExtentLine (ownerLine u g) = false :=
  not_extent_of_head
    (head?_data_append _ _ (head?_data_append _ _ (head?_data_append "owner " _
      (show ("owner " : String).data.head? = some 'o' by decide))))
    (by decide)

/-- The mode line is not an extents line. -/
lemma isExtentLine_modeLine (m : Nat) : isExtentLine (modeLine m) = false :=
  not_extent_of_head
    (head?_data_append "mode " _
      (show ("mode " : String).data.head? = some 'm' by decide))
    (by decide)

/-- The link line is not an extents line. -/
lemma isExtentLine_linkLine (l : String) : isExtentLine (linkLine l) = false :=
  not_extent_of_head
    (head?_data_append _ _ (head?_data_append "link to \"" l
      (show ("link to \"" : String).data.head? = some 'l' by decide)))
    (by decide)

/-- The symlink line is not an extents line. -/
lemma isExtentLine_symlinkLine (i : String) : isExtentLine (symlinkLine i) = false :=
  not_extent_of_head
    (head?_data_append _ _ (head?_data_append "symlink to \"" i
      (show ("symlink to \"" : String).data.head? = some 's' by decide)))
    (by decide)

/-- The rename line is not an extents line. -/
lemma isExtentLine_renameLine (pt : String) : isExtentLine (renameLine pt) = false :=
  not_extent_of_head
    (head?_data_append _ _ (head?_data_append "rename to \"" pt
      (show ("rename to \"" : String).data.head? = some 'r' by decide)))
    (by decide)

/-- The times line is not an extents line. -/
lemma isExtentLine_timesLine (a m c : Nat × Nat) :
    isExtentLine (timesLine a m c) = false :=
  not_extent_of_head
    (head?_data_append _ _ (head?_data_append _ _ (head?_data_append _ _
      (head?_data_append _ _ (head?_data_append "times a=" _
        (show ("times a=" : String).data.head? = some 't' by decide))))))
    (by decide)

/-- The snapshot line is not an extents line. -/
lemma isExtentLine_snapshotLine (u : String) (ct : Nat) (cu : String) (cct : Nat) :
    isExtentLine (snapshotLine u ct cu cct) = false :=
  not_extent_of_head
    (head?_data_append _ _ (head?_data_append _ _ (head?_data_append _ _
      (head?_data_append _ _ (head?_data_append _ _ (head?_data_append _ _
        (head?_data_append "snapshot: uuid=" u
          (show ("snapshot: uuid=" : String).data.head? = some 's' by decide))))))))
    (by decide)

/-- The fallback line is not an extents line. -/
lemma isExtentLine_elseLine (a : Entry) (cmd : Op) :
    isExtentLine (elseLine a cmd) = false :=
  not_extent_of_head
    (head?_data_append _ _ (head?_data_append _ _ (head?_data_append _ _
      (head?_data_append _ _ (head?_data_append _ _
        (head?_data_append "(" a.1
          (show ("(" : String).data.head? = some '(' by decide)))))))
    (by decide)

/-- Termination of the flush: when a pending run has a nonempty buffer, the
flush appends exactly `flushLines`. -/
lemma flush_spec {st : RState} {k : String}
    (h1 : st.prev = some "update_extent" → st.extents ≠ []) :
    flushExtents st k = .ok (st.out ++ flushLines st k) := by
  unfold flushExtents flushLines
  by_cases hc : st.prev = some "update_extent" ∧ ¬(k = "update_extent")
  · rcases hh : st.extents.head? with _ | e0
    · exact absurd (List.head?_eq_none_iff.mp hh) (h1 hc.1)
    rcases hl : st.extents.getLast? with _ | e1
    · exact absurd (List.getLast?_eq_none_iff.mp hl) (h1 hc.1)
    simp [hc, hh, hl, pendingLine]
  · simp [hc, pendingLine]

/-- Source `flushLines` are all extents lines, so filtering keeps them whole. -/
lemma filter_append_flushLines (out : List String) (st : RState) (k : String) :
    (out ++ flushLines st k).filter isExtentLine =
      out.filter isExtentLine ++ flushLines st k := by
  rw [List.filter_append]
  congr 1
  unfold flushLines pendingLine
  by_cases hc : st.prev = some "update_extent" ∧ ¬(k = "update_extent")
  · simp only [hc, and_self, if_true]
    rcases st.extents.head? with _ | e0 <;> rcases st.extents.getLast? with _ | e1 <;>
      simp [isExtentLine_extentLine]
  · simp [hc]

/-- Nothing is flushed unless an extent run just ended. -/
lemma flushLines_nil_of_prev {st : RState} {k : String}
    (h : ¬(st.prev = some "update_extent")) : flushLines st k = [] := by
  simp [flushLines, h]

/-- Nothing is flushed while the run continues. -/
lemma flushLines_nil_of_ue {st : RState} : flushLines st "update_extent" = [] := by
  simp [flushLines]

/-- Deleting a last line that is not an extents line and appending another
non-extents line leaves the extents lines unchanged. -/
lemma filter_dropLast_concat {l : List String} {z w : String}
    (hz : l.getLast? = some z) (hPz : isExtentLine z = false)
    (hPw : isExtentLine w = false) :
    (l.dropLast ++ [w]).filter isExtentLine = l.filter isExtentLine := by
  conv_rhs => rw [← List.dropLast_append_getLast? z hz]
  rw [List.filter_append, List.filter_append]
  simp [hPz, hPw]

set_option maxHeartbeats 2000000 in
/-- One action-loop dispatch, under a well-shaped command element: it never
fails, it touches `extents` only in the update-extent branch (appending the
command fields), it never adds or removes a collapsed-extents line, and it
re-establishes the last-line facts for the deleting branches. -/
lemma renderDispatch_spec (filt : Bool) (a : Entry) (op : Op) (prev : Option String)
    (out : List String) (extents : List (Nat × Nat))
    (hsh : shapeOk a.1 op = true)
    (hul : prev = some "unlink" → out.getLast? = some "unlink")
    (hut : prev = some "utimes" → ∃ l, out.getLast? = some l ∧ isExtentLine l = false) :
    ∃ out2 ex2, renderDispatch filt a op prev out extents = .ok (out2, ex2) ∧
      (if a.1 = "update_extent"
        then ∃ o sz, op = .update_extent o sz ∧ ex2 = extents ++ [(o, sz)] ∧ out2 = out
        else ex2 = extents ∧ out2.filter isExtentLine = out.filter isExtentLine) ∧
      (a.1 = "unlink" → out2.getLast? = some "unlink") ∧
      (a.1 = "utimes" → ∃ l, out2.getLast? = some l ∧ isExtentLine l = false) := by
  unfold renderDispatch
  by_cases hk0 : a.1 = "renamed_from"
  · simp only [if_pos hk0]
    rcases op with ⟨u1, c1⟩ | ⟨u1, c1, cu1, cc1⟩ | s1 | ⟨m1, r1⟩ | i1 | ⟨p1, pt1⟩ | l1 | ⟨n1, d1⟩ | n1 | ⟨o1, d1⟩ | ⟨ca, cb, cc2, cd, ce⟩ | n1 | m1 | ⟨u1, g1⟩ | ⟨x1, y1, z1⟩ | ⟨o1, sz1⟩ | ⟨p1, l1⟩
    · rw [hk0] at hsh
      simp [shapeOk] at hsh
    · rw [hk0] at hsh
      simp [shapeOk] at hsh
    · rw [hk0] at hsh
      simp [shapeOk] at hsh
    · rw [hk0] at hsh
      simp [shapeOk] at hsh
    · rw [hk0] at hsh
      simp [shapeOk] at hsh
    · by_cases hf : (filt && isTmp p1) = true
      · simp only [if_pos hf]
        by_cases hp : prev = some "unlink"
        · simp only [if_pos hp]
          have hlast := hul hp
          rcases out with _ | ⟨w1, ws⟩
          · simp at hlast
          · refine ⟨(w1 :: ws).dropLast ++ ["rewritten"], extents, rfl, ?_, ?_, ?_⟩
            · have hne : ¬(a.1 = "update_extent") := by rw [hk0]; decide
              rw [if_neg hne]
              exact ⟨rfl, filter_dropLast_concat hlast (by decide) (by decide)⟩
            · intro hx
              rw [hk0] at hx
              exact absurd hx (by decide)
            · intro hx
              rw [hk0] at hx
              exact absurd hx (by decide)
        · simp only [if_neg hp]
          refine ⟨out ++ ["created"], extents, rfl, ?_, ?_, ?_⟩
          · have hne : ¬(a.1 = "update_extent") := by rw [hk0]; decide
            rw [if_neg hne]
            exact ⟨rfl, by simp [List.filter_append, show isExtentLine "created" = false from by decide]⟩
          · intro hx
            rw [hk0] at hx
            exact absurd hx (by decide)
          · intro hx
            rw [hk0] at hx
            exact absurd hx (by decide)
      · simp only [if_neg hf]
        refine ⟨out ++ [renamedFromLine (pathStr p1)], extents, rfl, ?_, ?_, ?_⟩
        · have hne : ¬(a.1 = "update_extent") := by rw [hk0]; decide
          rw [if_neg hne]
          exact ⟨rfl, by simp [List.filter_append, isExtentLine_renamedFromLine]⟩
        · intro hx
          rw [hk0] at hx
          exact absurd hx (by decide)
        · intro hx
          rw [hk0] at hx
          exact absurd hx (by decide)
    · rw [hk0] at hsh
      simp [shapeOk] at hsh
    · rw [hk0] at hsh
      simp [shapeOk] at hsh
    · rw [hk0] at hsh
      simp [shapeOk] at hsh
    · rw [hk0] at hsh
      simp [shapeOk] at hsh
    · rw [hk0] at hsh
      simp [shapeOk] at hsh
    · rw [hk0] at hsh
      simp [shapeOk] at hsh
    · rw [hk0] at hsh
      simp [shapeOk] at hsh
    · rw [hk0] at hsh
      simp [shapeOk] at hsh
    · rw [hk0] at hsh
      simp [shapeOk] at hsh
    · rw [hk0] at hsh
      simp [shapeOk] at hsh
    · rw [hk0] at hsh
      simp [shapeOk] at hsh
  simp only [if_neg hk0]
  by_cases hk1 : a.1 = "set_xattr"
  · simp only [if_pos hk1]
    rcases op with ⟨u1, c1⟩ | ⟨u1, c1, cu1, cc1⟩ | s1 | ⟨m1, r1⟩ | i1 | ⟨p1, pt1⟩ | l1 | ⟨n1, d1⟩ | n1 | ⟨o1, d1⟩ | ⟨ca, cb, cc2, cd, ce⟩ | n1 | m1 | ⟨u1, g1⟩ | ⟨x1, y1, z1⟩ | ⟨o1, sz1⟩ | ⟨p1, l1⟩
    · rw [hk1] at hsh
      simp [shapeOk] at hsh
    · rw [hk1] at hsh
      simp [shapeOk] at hsh
    · rw [hk1] at hsh
      simp [shapeOk] at hsh
    · rw [hk1] at hsh
      simp [shapeOk] at hsh
    · rw [hk1] at hsh
      simp [shapeOk] at hsh
    · rw [hk1] at hsh
      simp [shapeOk] at hsh
    · rw [hk1] at hsh
      simp [shapeOk] at hsh
    · refine ⟨out ++ [xattrLine (pathStr n1) d1], extents, rfl, ?_, ?_, ?_⟩
      · have hne : ¬(a.1 = "update_extent") := by rw [hk1]; decide
        rw [if_neg hne]
        exact ⟨rfl, by simp [List.filter_append, isExtentLine_xattrLine]⟩
      · intro hx
        rw [hk1] at hx
        exact absurd hx (by decide)
      · intro hx
        rw [hk1] at hx
        exact absurd hx (by decide)
    · rw [hk1] at hsh
      simp [shapeOk] at hsh
    · rw [hk1] at hsh
      simp [shapeOk] at hsh
    · rw [hk1] at hsh
      simp [shapeOk] at hsh
    · rw [hk1] at hsh
      simp [shapeOk] at hsh
    · rw [hk1] at hsh
      simp [shapeOk] at hsh
    · rw [hk1] at hsh
      simp [shapeOk] at hsh
    · rw [hk1] at hsh
      simp [shapeOk] at hsh
    · rw [hk1] at hsh
      simp [shapeOk] at hsh
    · rw [hk1] at hsh
      simp [shapeOk] at hsh
  simp only [if_neg hk1]
  by_cases hk2 : a.1 = "update_extent"
  · simp only [if_pos hk2]
    rcases op with ⟨u1, c1⟩ | ⟨u1, c1, cu1, cc1⟩ | s1 | ⟨m1, r1⟩ | i1 | ⟨p1, pt1⟩ | l1 | ⟨n1, d1⟩ | n1 | ⟨o1, d1⟩ | ⟨ca, cb, cc2, cd, ce⟩ | n1 | m1 | ⟨u1, g1⟩ | ⟨x1, y1, z1⟩ | ⟨o1, sz1⟩ | ⟨p1, l1⟩
    · rw [hk2] at hsh
      simp [shapeOk] at hsh
    · rw [hk2] at hsh
      simp [shapeOk] at hsh
    · rw [hk2] at hsh
      simp [shapeOk] at hsh
    · rw [hk2] at hsh
      simp [shapeOk] at hsh
    · rw [hk2] at hsh
      simp [shapeOk] at hsh
    · rw [hk2] at hsh
      simp [shapeOk] at hsh
    · rw [hk2] at hsh
      simp [shapeOk] at hsh
    · rw [hk2] at hsh
      simp [shapeOk] at hsh
    · rw [hk2] at hsh
      simp [shapeOk] at hsh
    · rw [hk2] at hsh
      simp [shapeOk] at hsh
    · rw [hk2] at hsh
      simp [shapeOk] at hsh
    · rw [hk2] at hsh
      simp [shapeOk] at hsh
    · rw [hk2] at hsh
      simp [shapeOk] at hsh
    · rw [hk2] at hsh
      simp [shapeOk] at hsh
    · rw [hk2] at hsh
      simp [shapeOk] at hsh
    · refine ⟨out, extents ++ [(o1, sz1)], rfl, ?_, ?_, ?_⟩
      · exact ⟨o1, sz1, rfl, rfl, rfl⟩
      · intro hx
        rw [hk2] at hx
        exact absurd hx (by decide)
      · intro hx
        rw [hk2] at hx
        exact absurd hx (by decide)
    · rw [hk2] at hsh
      simp [shapeOk] at hsh
  simp only [if_neg hk2]
  by_cases hk3 : a.1 = "truncate"
  · simp only [if_pos hk3]
    rcases op with ⟨u1, c1⟩ | ⟨u1, c1, cu1, cc1⟩ | s1 | ⟨m1, r1⟩ | i1 | ⟨p1, pt1⟩ | l1 | ⟨n1, d1⟩ | n1 | ⟨o1, d1⟩ | ⟨ca, cb, cc2, cd, ce⟩ | n1 | m1 | ⟨u1, g1⟩ | ⟨x1, y1, z1⟩ | ⟨o1, sz1⟩ | ⟨p1, l1⟩
    · rw [hk3] at hsh
      simp [shapeOk] at hsh
    · rw [hk3] at hsh
      simp [shapeOk] at hsh
    · rw [hk3] at hsh
      simp [shapeOk] at hsh
    · rw [hk3] at hsh
      simp [shapeOk] at hsh
    · rw [hk3] at hsh
      simp [shapeOk] at hsh
    · rw [hk3] at hsh
      simp [shapeOk] at hsh
    · rw [hk3] at hsh
      simp [shapeOk] at hsh
    · rw [hk3] at hsh
      simp [shapeOk] at hsh
    · rw [hk3] at hsh
      simp [shapeOk] at hsh
    · rw [hk3] at hsh
      simp [shapeOk] at hsh
    · rw [hk3] at hsh
      simp [shapeOk] at hsh
    · refine ⟨out ++ [truncateLine n1], extents, rfl, ?_, ?_, ?_⟩
      · exact ⟨rfl, by simp [List.filter_append, isExtentLine_truncateLine]⟩
      · intro hx
        rw [hk3] at hx
        exact absurd hx (by decide)
      · intro hx
        rw [hk3] at hx
        exact absurd hx (by decide)
    · rw [hk3] at hsh
      simp [shapeOk] at hsh
    · rw [hk3] at hsh
      simp [shapeOk] at hsh
    · rw [hk3] at hsh
      simp [shapeOk] at hsh
    · rw [hk3] at hsh
      simp [shapeOk] at hsh
    · rw [hk3] at hsh
      simp [shapeOk] at hsh
  simp only [if_neg hk3]
  by_cases hk4 : a.1 = "chown"
  · simp only [if_pos hk4]
    rcases op with ⟨u1, c1⟩ | ⟨u1, c1, cu1, cc1⟩ | s1 | ⟨m1, r1⟩ | i1 | ⟨p1, pt1⟩ | l1 | ⟨n1, d1⟩ | n1 | ⟨o1, d1⟩ | ⟨ca, cb, cc2, cd, ce⟩ | n1 | m1 | ⟨u1, g1⟩ | ⟨x1, y1, z1⟩ | ⟨o1, sz1⟩ | ⟨p1, l1⟩
    · rw [hk4] at hsh
      simp [shapeOk] at hsh
    · rw [hk4] at hsh
      simp [shapeOk] at hsh
    · rw [hk4] at hsh
      simp [shapeOk] at hsh
    · rw [hk4] at hsh
      simp [shapeOk] at hsh
    · rw [hk4] at hsh
      simp [shapeOk] at hsh
    · rw [hk4] at hsh
      simp [shapeOk] at hsh
    · rw [hk4] at hsh
      simp [shapeOk] at hsh
    · rw [hk4] at hsh
      simp [shapeOk] at hsh
    · rw [hk4] at hsh
      simp [shapeOk] at hsh
    · rw [hk4] at hsh
      simp [shapeOk] at hsh
    · rw [hk4] at hsh
      simp [shapeOk] at hsh
    · rw [hk4] at hsh
      simp [shapeOk] at hsh
    · rw [hk4] at hsh
      simp [shapeOk] at hsh
    · refine ⟨out ++ [ownerLine u1 g1], extents, rfl, ?_, ?_, ?_⟩
      · exact ⟨rfl, by simp [List.filter_append, isExtentLine_ownerLine]⟩
      · intro hx
        rw [hk4] at hx
        exact absurd hx (by decide)
      · intro hx
        rw [hk4] at hx
        exact absurd hx (by decide)
    · rw [hk4] at hsh
      simp [shapeOk] at hsh
    · rw [hk4] at hsh
      simp [shapeOk] at hsh
    · rw [hk4] at hsh
      simp [shapeOk] at hsh
  simp only [if_neg hk4]
  by_cases hk5 : a.1 = "chmod"
  · simp only [if_pos hk5]
    rcases op with ⟨u1, c1⟩ | ⟨u1, c1, cu1, cc1⟩ | s1 | ⟨m1, r1⟩ | i1 | ⟨p1, pt1⟩ | l1 | ⟨n1, d1⟩ | n1 | ⟨o1, d1⟩ | ⟨ca, cb, cc2, cd, ce⟩ | n1 | m1 | ⟨u1, g1⟩ | ⟨x1, y1, z1⟩ | ⟨o1, sz1⟩ | ⟨p1, l1⟩
    · rw [hk5] at hsh
      simp [shapeOk] at hsh
    · rw [hk5] at hsh
      simp [shapeOk] at hsh
    · rw [hk5] at hsh
      simp [shapeOk] at hsh
    · rw [hk5] at hsh
      simp [shapeOk] at hsh
    · rw [hk5] at hsh
      simp [shapeOk] at hsh
    · rw [hk5] at hsh
      simp [shapeOk] at hsh
    · rw [hk5] at hsh
      simp [shapeOk] at hsh
    · rw [hk5] at hsh
      simp [shapeOk] at hsh
    · rw [hk5] at hsh
      simp [shapeOk] at hsh
    · rw [hk5] at hsh
      simp [shapeOk] at hsh
    · rw [hk5] at hsh
      simp [shapeOk] at hsh
    · rw [hk5] at hsh
      simp [shapeOk] at hsh
    · refine ⟨out ++ [modeLine m1], extents, rfl, ?_, ?_, ?_⟩
      · exact ⟨rfl, by simp [List.filter_append, isExtentLine_modeLine]⟩
      · intro hx
        rw [hk5] at hx
        exact absurd hx (by decide)
      · intro hx
        rw [hk5] at hx
        exact absurd hx (by decide)
    · rw [hk5] at hsh
      simp [shapeOk] at hsh
    · rw [hk5] at hsh
      simp [shapeOk] at hsh
    · rw [hk5] at hsh
      simp [shapeOk] at hsh
    · rw [hk5] at hsh
      simp [shapeOk] at hsh
  simp only [if_neg hk5]
  by_cases hk6 : a.1 = "link"
  · simp only [if_pos hk6]
    rcases op with ⟨u1, c1⟩ | ⟨u1, c1, cu1, cc1⟩ | s1 | ⟨m1, r1⟩ | i1 | ⟨p1, pt1⟩ | l1 | ⟨n1, d1⟩ | n1 | ⟨o1, d1⟩ | ⟨ca, cb, cc2, cd, ce⟩ | n1 | m1 | ⟨u1, g1⟩ | ⟨x1, y1, z1⟩ | ⟨o1, sz1⟩ | ⟨p1, l1⟩
    · rw [hk6] at hsh
      simp [shapeOk] at hsh
    · rw [hk6] at hsh
      simp [shapeOk] at hsh
    · rw [hk6] at hsh
      simp [shapeOk] at hsh
    · rw [hk6] at hsh
      simp [shapeOk] at hsh
    · rw [hk6] at hsh
      simp [shapeOk] at hsh
    · rw [hk6] at hsh
      simp [shapeOk] at hsh
    · refine ⟨out ++ [linkLine (pathStr l1)], extents, rfl, ?_, ?_, ?_⟩
      · exact ⟨rfl, by simp [List.filter_append, isExtentLine_linkLine]⟩
      · intro hx
        rw [hk6] at hx
        exact absurd hx (by decide)
      · intro hx
        rw [hk6] at hx
        exact absurd hx (by decide)
    · rw [hk6] at hsh
      simp [shapeOk] at hsh
    · rw [hk6] at hsh
      simp [shapeOk] at hsh
    · rw [hk6] at hsh
      simp [shapeOk] at hsh
    · rw [hk6] at hsh
      simp [shapeOk] at hsh
    · rw [hk6] at hsh
      simp [shapeOk] at hsh
    · rw [hk6] at hsh
      simp [shapeOk] at hsh
    · rw [hk6] at hsh
      simp [shapeOk] at hsh
    · rw [hk6] at hsh
      simp [shapeOk] at hsh
    · rw [hk6] at hsh
      simp [shapeOk] at hsh
    · rw [hk6] at hsh
      simp [shapeOk] at hsh
  simp only [if_neg hk6]
  by_cases hk7 : a.1 = "symlink"
  · simp only [if_pos hk7]
    rcases op with ⟨u1, c1⟩ | ⟨u1, c1, cu1, cc1⟩ | s1 | ⟨m1, r1⟩ | i1 | ⟨p1, pt1⟩ | l1 | ⟨n1, d1⟩ | n1 | ⟨o1, d1⟩ | ⟨ca, cb, cc2, cd, ce⟩ | n1 | m1 | ⟨u1, g1⟩ | ⟨x1, y1, z1⟩ | ⟨o1, sz1⟩ | ⟨p1, l1⟩
    · rw [hk7] at hsh
      simp [shapeOk] at hsh
    · rw [hk7] at hsh
      simp [shapeOk] at hsh
    · rw [hk7] at hsh
      simp [shapeOk] at hsh
    · rw [hk7] at hsh
      simp [shapeOk] at hsh
    · refine ⟨out ++ [symlinkLine (pathStr i1)], extents, rfl, ?_, ?_, ?_⟩
      · exact ⟨rfl, by simp [List.filter_append, isExtentLine_symlinkLine]⟩
      · intro hx
        rw [hk7] at hx
        exact absurd hx (by decide)
      · intro hx
        rw [hk7] at hx
        exact absurd hx (by decide)
    · rw [hk7] at hsh
      simp [shapeOk] at hsh
    · rw [hk7] at hsh
      simp [shapeOk] at hsh
    · rw [hk7] at hsh
      simp [shapeOk] at hsh
    · rw [hk7] at hsh
      simp [shapeOk] at hsh
    · rw [hk7] at hsh
      simp [shapeOk] at hsh
    · rw [hk7] at hsh
      simp [shapeOk] at hsh
    · rw [hk7] at hsh
      simp [shapeOk] at hsh
    · rw [hk7] at hsh
      simp [shapeOk] at hsh
    · rw [hk7] at hsh
      simp [shapeOk] at hsh
    · rw [hk7] at hsh
      simp [shapeOk] at hsh
    · rw [hk7] at hsh
      simp [shapeOk] at hsh
    · rw [hk7] at hsh
      simp [shapeOk] at hsh
  simp only [if_neg hk7]
  by_cases hk8 : a.1 = "unlink" ∨ a.1 = "mkfile" ∨ a.1 = "mkdir" ∨ a.1 = "mkfifo"
  · simp only [if_pos hk8]
    refine ⟨out ++ [a.1], extents, rfl, ?_, ?_, ?_⟩
    · have hP : isExtentLine a.1 = false := by
        rcases hk8 with h | h | h | h <;> rw [h] <;> decide
      exact ⟨rfl, by simp [List.filter_append, hP]⟩
    · intro hx
      rw [hx]
      exact List.getLast?_concat _
    · intro hx
      rcases hk8 with h | h | h | h <;> rw [h] at hx <;> exact absurd hx (by decide)
  simp only [if_neg hk8]
  by_cases hk9 : a.1 = "rename"
  · simp only [if_pos hk9]
    rcases op with ⟨u1, c1⟩ | ⟨u1, c1, cu1, cc1⟩ | s1 | ⟨m1, r1⟩ | i1 | ⟨p1, pt1⟩ | l1 | ⟨n1, d1⟩ | n1 | ⟨o1, d1⟩ | ⟨ca, cb, cc2, cd, ce⟩ | n1 | m1 | ⟨u1, g1⟩ | ⟨x1, y1, z1⟩ | ⟨o1, sz1⟩ | ⟨p1, l1⟩
    · rw [hk9] at hsh
      simp [shapeOk] at hsh
    · rw [hk9] at hsh
      simp [shapeOk] at hsh
    · rw [hk9] at hsh
      simp [shapeOk] at hsh
    · rw [hk9] at hsh
      simp [shapeOk] at hsh
    · rw [hk9] at hsh
      simp [shapeOk] at hsh
    · refine ⟨out ++ [renameLine (pathStr pt1)], extents, rfl, ?_, ?_, ?_⟩
      · exact ⟨rfl, by simp [List.filter_append, isExtentLine_renameLine]⟩
      · intro hx
        rw [hk9] at hx
        exact absurd hx (by decide)
      · intro hx
        rw [hk9] at hx
        exact absurd hx (by decide)
    · rw [hk9] at hsh
      simp [shapeOk] at hsh
    · rw [hk9] at hsh
      simp [shapeOk] at hsh
    · rw [hk9] at hsh
      simp [shapeOk] at hsh
    · rw [hk9] at hsh
      simp [shapeOk] at hsh
    · rw [hk9] at hsh
      simp [shapeOk] at hsh
    · rw [hk9] at hsh
      simp [shapeOk] at hsh
    · rw [hk9] at hsh
      simp [shapeOk] at hsh
    · rw [hk9] at hsh
      simp [shapeOk] at hsh
    · rw [hk9] at hsh
      simp [shapeOk] at hsh
    · rw [hk9] at hsh
      simp [shapeOk] at hsh
    · rw [hk9] at hsh
      simp [shapeOk] at hsh
  simp only [if_neg hk9]
  by_cases hk10 : a.1 = "utimes"
  · simp only [if_pos hk10]
    rcases op with ⟨u1, c1⟩ | ⟨u1, c1, cu1, cc1⟩ | s1 | ⟨m1, r1⟩ | i1 | ⟨p1, pt1⟩ | l1 | ⟨n1, d1⟩ | n1 | ⟨o1, d1⟩ | ⟨ca, cb, cc2, cd, ce⟩ | n1 | m1 | ⟨u1, g1⟩ | ⟨x1, y1, z1⟩ | ⟨o1, sz1⟩ | ⟨p1, l1⟩
    · rw [hk10] at hsh
      simp [shapeOk] at hsh
    · rw [hk10] at hsh
      simp [shapeOk] at hsh
    · rw [hk10] at hsh
      simp [shapeOk] at hsh
    · rw [hk10] at hsh
      simp [shapeOk] at hsh
    · rw [hk10] at hsh
      simp [shapeOk] at hsh
    · rw [hk10] at hsh
      simp [shapeOk] at hsh
    · rw [hk10] at hsh
      simp [shapeOk] at hsh
    · rw [hk10] at hsh
      simp [shapeOk] at hsh
    · rw [hk10] at hsh
      simp [shapeOk] at hsh
    · rw [hk10] at hsh
      simp [shapeOk] at hsh
    · rw [hk10] at hsh
      simp [shapeOk] at hsh
    · rw [hk10] at hsh
      simp [shapeOk] at hsh
    · rw [hk10] at hsh
      simp [shapeOk] at hsh
    · rw [hk10] at hsh
      simp [shapeOk] at hsh
    · by_cases hq : filt = true ∧ prev = some "utimes"
      · simp only [if_pos hq]
        obtain ⟨l0, hlast, hPl0⟩ := hut hq.2
        rcases out with _ | ⟨w1, ws⟩
        · simp at hlast
        · refine ⟨(w1 :: ws).dropLast ++ [timesLine x1 y1 z1], extents, rfl, ?_, ?_, ?_⟩
          · exact ⟨rfl, filter_dropLast_concat hlast hPl0 (isExtentLine_timesLine x1 y1 z1)⟩
          · intro hx
            rw [hk10] at hx
            exact absurd hx (by decide)
          · intro hx
            exact ⟨timesLine x1 y1 z1, List.getLast?_concat _, isExtentLine_timesLine x1 y1 z1⟩
      · simp only [if_neg hq]
        refine ⟨out ++ [timesLine x1 y1 z1], extents, rfl, ?_, ?_, ?_⟩
        · exact ⟨rfl, by simp [List.filter_append, isExtentLine_timesLine]⟩
        · intro hx
          rw [hk10] at hx
          exact absurd hx (by decide)
        · intro hx
          exact ⟨timesLine x1 y1 z1, List.getLast?_concat _, isExtentLine_timesLine x1 y1 z1⟩
    · rw [hk10] at hsh
      simp [shapeOk] at hsh
    · rw [hk10] at hsh
      simp [shapeOk] at hsh
  simp only [if_neg hk10]
  by_cases hk11 : a.1 = "snapshot"
  · simp only [if_pos hk11]
    rcases op with ⟨u1, c1⟩ | ⟨u1, c1, cu1, cc1⟩ | s1 | ⟨m1, r1⟩ | i1 | ⟨p1, pt1⟩ | l1 | ⟨n1, d1⟩ | n1 | ⟨o1, d1⟩ | ⟨ca, cb, cc2, cd, ce⟩ | n1 | m1 | ⟨u1, g1⟩ | ⟨x1, y1, z1⟩ | ⟨o1, sz1⟩ | ⟨p1, l1⟩
    · rw [hk11] at hsh
      simp [shapeOk] at hsh
    · refine ⟨out ++ [snapshotLine u1 c1 cu1 cc1], extents, rfl, ?_, ?_, ?_⟩
      · exact ⟨rfl, by simp [List.filter_append, isExtentLine_snapshotLine]⟩
      · intro hx
        rw [hk11] at hx
        exact absurd hx (by decide)
      · intro hx
        rw [hk11] at hx
        exact absurd hx (by decide)
    · rw [hk11] at hsh
      simp [shapeOk] at hsh
    · rw [hk11] at hsh
      simp [shapeOk] at hsh
    · rw [hk11] at hsh
      simp [shapeOk] at hsh
    · rw [hk11] at hsh
      simp [shapeOk] at hsh
    · rw [hk11] at hsh
      simp [shapeOk] at hsh
    · rw [hk11] at hsh
      simp [shapeOk] at hsh
    · rw [hk11] at hsh
      simp [shapeOk] at hsh
    · rw [hk11] at hsh
      simp [shapeOk] at hsh
    · rw [hk11] at hsh
      simp [shapeOk] at hsh
    · rw [hk11] at hsh
      simp [shapeOk] at hsh
    · rw [hk11] at hsh
      simp [shapeOk] at hsh
    · rw [hk11] at hsh
      simp [shapeOk] at hsh
    · rw [hk11] at hsh
      simp [shapeOk] at hsh
    · rw [hk11] at hsh
      simp [shapeOk] at hsh
    · rw [hk11] at hsh
      simp [shapeOk] at hsh
  simp only [if_neg hk11]
  by_cases hk12 : a.1 = "write"
  · simp only [if_pos hk12]
    refine ⟨out ++ ["write: from cmd[1]"], extents, rfl, ?_, ?_, ?_⟩
    · exact ⟨rfl, by simp [List.filter_append, show isExtentLine "write: from cmd[1]" = false from by decide]⟩
    · intro hx
      rw [hk12] at hx
      exact absurd hx (by decide)
    · intro hx
      rw [hk12] at hx
      exact absurd hx (by decide)
  simp only [if_neg hk12]
  refine ⟨out ++ [elseLine a op], extents, rfl, ?_, ?_, ?_⟩
  · exact ⟨rfl, by simp [List.filter_append, isExtentLine_elseLine]⟩
  · intro hx
    exact absurd (Or.inl hx) hk8
  · intro hx
    exact absurd hx hk10

/-- One full action-loop iteration under a well-shaped command element:
lookup, flush, dispatch.  It never fails, re-establishes the rolling-state
invariant, and its whole effect on the collapsed-extents lines is the flush. -/
lemma renderStep_spec (filt : Bool) (cmds : List Op) (st : RState) (a : Entry)
    (hinv : RInv st) (op : Op) (hop : cmds[a.2]? = some op)
    (hsh : shapeOk a.1 op = true) :
    ∃ st', renderStep filt cmds st a = .ok st' ∧
      st'.prev = some a.1 ∧ RInv st' ∧
      (if a.1 = "update_extent"
        then (∃ o sz, op = .update_extent o sz ∧ st'.extents = st.extents ++ [(o, sz)]) ∧
          st'.out.filter isExtentLine = st.out.filter isExtentLine
        else st'.extents = st.extents ∧
          st'.out.filter isExtentLine =
            st.out.filter isExtentLine ++ flushLines st a.1) := by
  obtain ⟨h1, h2, h3⟩ := hinv
  have hflush : flushExtents st a.1 = .ok (st.out ++ flushLines st a.1) :=
    flush_spec h1
  have hul' : st.prev = some "unlink" →
      (st.out ++ flushLines st a.1).getLast? = some "unlink" := by
    intro hp
    rw [flushLines_nil_of_prev (by rw [hp]; simp)]
    rw [List.append_nil]
    exact h2 hp
  have hut' : st.prev = some "utimes" →
      ∃ l, (st.out ++ flushLines st a.1).getLast? = some l ∧ isExtentLine l = false := by
    intro hp
    rw [flushLines_nil_of_prev (by rw [hp]; simp)]
    rw [List.append_nil]
    exact h3 hp
  obtain ⟨out2, ex2, hrd, hif, hU, hT⟩ :=
    renderDispatch_spec filt a op st.prev (st.out ++ flushLines st a.1) st.extents
      hsh hul' hut'
  refine ⟨⟨some a.1, ex2, out2⟩, ?_, rfl, ?_, ?_⟩
  · unfold renderStep
    rw [hop]
    exact bind_eq_ok.mpr ⟨op, rfl,
      bind_eq_ok.mpr ⟨st.out ++ flushLines st a.1, hflush,
        bind_eq_ok.mpr ⟨(out2, ex2), hrd, rfl⟩⟩⟩
  · refine ⟨?_, ?_, ?_⟩
    · intro hp
      injection hp with hp'
      rw [if_pos hp'] at hif
      obtain ⟨o, sz, -, hex, -⟩ := hif
      simp only [hex]
      simp
    · intro hp
      injection hp with hp'
      exact hU hp'
    · intro hp
      injection hp with hp'
      exact hT hp'
  · by_cases ha : a.1 = "update_extent"
    · rw [if_pos ha] at hif ⊢
      obtain ⟨o, sz, hopeq, hex, hout⟩ := hif
      refine ⟨⟨o, sz, hopeq, hex⟩, ?_⟩
      simp only [hout]
      rw [ha, flushLines_nil_of_ue, List.append_nil]
    · rw [if_neg ha] at hif ⊢
      obtain ⟨hex, hfil⟩ := hif
      refine ⟨hex, ?_⟩
      simp only [hfil]
      exact filter_append_flushLines st.out st a.1

/-- Walking one path's whole history: under well-shaped entries the loop
never fails, and the collapsed-extents lines it prints are exactly those of
the reference scanner started from the current rolling state. -/
lemma renderActs_spec (filt : Bool) (cmds : List Op) :
    ∀ (acts : List Entry) (st : RState),
      WFacts cmds acts = true → RInv st →
      ∃ st', renderActs filt cmds st acts = .ok st' ∧
        st'.out.filter isExtentLine =
          st.out.filter isExtentLine ++
            collapsedExtentLinesAux cmds st.extents
              (decide (st.prev = some "update_extent")) acts := by
  intro acts
  induction acts with
  | nil =>
    intro st _ _
    exact ⟨st, rfl, by simp [collapsedExtentLinesAux]⟩
  | cons a rest ih =>
    intro st hwf hinv
    have hall := List.all_eq_true.mp hwf
    have ha := hall a (List.mem_cons_self a rest)
    have hwfrest : WFacts cmds rest = true := by
      rw [WFacts, List.all_eq_true]
      intro x hx
      exact hall x (List.mem_cons_of_mem a hx)
    rcases hop : cmds[a.2]? with _ | op
    · rw [hop] at ha
      simp at ha
    rw [hop] at ha
    simp only at ha
    obtain ⟨st', hstep, hprev, hinv', hif⟩ := renderStep_spec filt cmds st a hinv op hop ha
    obtain ⟨st'', hacts, hfil⟩ := ih st' hwfrest hinv'
    refine ⟨st'', bind_eq_ok.mpr ⟨st', hstep, hacts⟩, ?_⟩
    rw [hfil]
    by_cases ha1 : a.1 = "update_extent"
    · rw [if_pos ha1] at hif
      obtain ⟨⟨o, sz, hopeq, hex⟩, hfeq⟩ := hif
      subst hopeq
      rw [hfeq]
      have hpu' : (decide (st'.prev = some "update_extent")) = true := by
        rw [hprev, ha1]
        simp
      rw [hpu', hex]
      have haux : collapsedExtentLinesAux cmds st.extents
          (decide (st.prev = some "update_extent")) (a :: rest) =
          collapsedExtentLinesAux cmds (st.extents ++ [(o, sz)]) true rest := by
        rw [collapsedExtentLinesAux]
        rw [if_pos ha1, hop]
      rw [haux]
    · rw [if_neg ha1] at hif
      obtain ⟨hex, hfeq⟩ := hif
      rw [hfeq]
      have hpu' : (decide (st'.prev = some "update_extent")) = false := by
        rw [hprev]
        simp [ha1]
      rw [hpu', hex]
      have haux : collapsedExtentLinesAux cmds st.extents
          (decide (st.prev = some "update_extent")) (a :: rest) =
          (if decide (st.prev = some "update_extent") = true
            then pendingLine st.extents else []) ++
            collapsedExtentLinesAux cmds st.extents false rest := by
        rw [collapsedExtentLinesAux]
        rw [if_neg ha1]
      rw [haux]
      have hfl : flushLines st a.1 =
          (if decide (st.prev = some "update_extent") = true
            then pendingLine st.extents else []) := by
        by_cases hpu : st.prev = some "update_extent"
        · simp [flushLines, hpu, ha1]
        · simp [flushLines, hpu]
      rw [hfl, List.append_assoc]

/-- Claim **C2** (corrected).  For every path rendered through the per-entry loop
(any path in normal mode; non-temporary paths in filter mode), the lines
printed for it are the path name followed by the action lines, and the
collapsed-extents lines among them are exactly those of the reference
scanner `collapsedExtentLines`: one line per maximal update-extent run that
is followed by a non-update-extent entry, reporting the range from the first
update-extent entry of the whole history (the buffer is never cleared
between runs) to the run's last entry's offset plus size — and *no* line for
a run that ends the history, since nothing flushes after the loop
(`claim_C2_counterexample` shows the dropped trailing run). -/
theorem claim_C2 (filt : Bool) (cmds : List Op) (path : List Nat) (acts : List Entry)
    (htmp : ¬(filt = true ∧ isTmp path = true))
    (hwf : WFacts cmds acts = true) :
    ∃ rest, renderPath filt cmds path acts =
        .ok ((if path = [] then subRootName else pathStr path) :: rest) ∧
      rest.filter isExtentLine = collapsedExtentLines cmds acts := by
  have hcond : (filt && isTmp path) = false := by
    cases hf : filt
    · simp [hf]
    · cases hti : isTmp path
      · simp [hf, hti]
      · exact absurd ⟨hf, hti⟩ htmp
  obtain ⟨st', hacts, hfil⟩ := renderActs_spec filt cmds acts ⟨none, [], []⟩ hwf
    ⟨by simp, by simp, by simp⟩
  refine ⟨st'.out, ?_, ?_⟩
  · unfold renderPath
    rw [hcond]
    simp only [Bool.false_eq_true, if_false]
    exact bind_eq_ok.mpr ⟨st', hacts, rfl⟩
  · rw [hfil]
    simp [collapsedExtentLines]

/-- Claim **C2** counterexample: a history that ends with an update-extent run
renders no collapsed-extents line at all, though the claim requires the run
to be collapsed into one line also when it ends the history. -/
theorem claim_C2_counterexample :
    renderPath false [Op.update_extent 0 5] [97] [("update_extent", 0)] = .ok ["a"] ∧
    extentLine 0 5 = "update extents 0 -> 5" ∧
    ¬("update extents 0 -> 5" ∈ (["a"] : List String)) :=
  ⟨by decide, by decide, by decide⟩

/-- Claim **C2** witness: a run followed by a truncate entry produces exactly the
one collapsed line of the reference scanner. -/
theorem claim_C2_witness :
    ∃ rest, renderPath false [Op.update_extent 0 5, Op.truncate 7] [97]
        [("update_extent", 0), ("truncate", 1)] =
      .ok ((if ([97] : List Nat) = [] then subRootName else pathStr [97]) :: rest) ∧
      rest.filter isExtentLine =
        collapsedExtentLines [Op.update_extent 0 5, Op.truncate 7]
          [("update_extent", 0), ("truncate", 1)] :=
  claim_C2 false [Op.update_extent 0 5, Op.truncate 7] [97]
    [("update_extent", 0), ("truncate", 1)] (by simp) (by decide)

end BtrfsStream
